import Mathlib

/-!
Shallow embedding of the Monimo transaction/inventory/journal engine
(src/script.js).  JavaScript global arrays become an `AppState` record;
in-place mutation becomes explicit state threading; `{ok}/{error}` return
objects become an `Option InvError` returned next to the (possibly
partially updated) state; `uid()` is modelled by a counter `nextId`
threaded through the state and `nowISO()` by a fixed `now` field (both
are declared external capabilities).  Money amounts and quantities are
exact integers: the source manipulates JavaScript numbers, but the core
never divides or rounds — every operation on money used here (addition,
subtraction, multiplication, comparison, min/max clamping) is uniform
over ordered rings, and integers keep every definition evaluable by the
kernel.
-/

/-- `t.type` field of a transaction: `'revenue'` or `'expense'`. -/
inductive TxnType where
  | revenue
  | expense
deriving DecidableEq, Repr

/-- `paymentMethod` field: `'Cash'` or `'Credit'`. -/
inductive PaymentMethod where
  | cash
  | credit
deriving DecidableEq, Repr

/-- `action` strings written by `addLog`: `'sale' | 'purchase' | 'restore' | 'manual'`. -/
inductive LogAction where
  | sale
  | purchase
  | restore
  | manual
deriving DecidableEq, Repr

/-- The two error messages the inventory ledger can produce:
`'Inventory item not found' / 'Inventory item no longer exists'` and
`'Not enough stock for ...'`. -/
inductive InvError where
  | itemNotFound
  | insufficientStock
deriving DecidableEq, Repr

/-- `stockAction` select values in `handleStockAdjust`: `'add'` or remove. -/
inductive StockAction where
  | add
  | removeStock
deriving DecidableEq, Repr

/-- Inventory item record (`inventory` array elements). -/
structure InventoryItem where
  id : Nat
  name : String
  description : String
  category : String
  unitPrice : Int
  quantity : Int
deriving DecidableEq, Repr

/-- Audit log entry record (`logs` array elements, built by `addLog`). -/
structure AuditLogEntry where
  id : Nat
  timestamp : Nat
  itemId : Option Nat
  itemName : String
  action : LogAction
  qtyChange : Int
  balanceAfter : Option Int
  note : String
deriving DecidableEq, Repr

/-- Transaction record (`transactions` array elements). -/
structure Transaction where
  id : Nat
  description : String
  amount : Int
  type : TxnType
  invId : Option Nat
  invQty : Option Int
  invName : Option String
  invCost : Int
  paymentMethod : PaymentMethod
  customer : String
  supplier : String
  date : Nat
deriving DecidableEq, Repr

/-- Purchases/Sales journal entry (elements of `purchasesJournal` and
`salesJournal`; purchase entries leave `customer` empty and sales
entries leave `supplier` empty). -/
structure JournalEntry where
  id : Nat
  txnId : Nat
  date : Nat
  description : String
  amount : Int
  invId : Option Nat
  invQty : Option Int
  paymentMethod : PaymentMethod
  customer : String
  supplier : String
  paidAmount : Int
  paid : Bool
deriving DecidableEq, Repr

/-- `cashReceipts` array elements. -/
structure CashReceipt where
  id : Nat
  date : Nat
  fromName : String
  amount : Int
  saleId : Nat
  note : String
deriving DecidableEq, Repr

/-- `cashDisbursements` array elements. -/
structure CashDisbursement where
  id : Nat
  date : Nat
  description : String
  amount : Int
  txnId : Nat
  note : String
deriving DecidableEq, Repr

/-- The global mutable module state of script.js (in-memory arrays
mirroring the persisted store), plus the external id/timestamp
capabilities. -/
structure AppState where
  transactions : List Transaction
  inventory : List InventoryItem
  logs : List AuditLogEntry
  purchasesJournal : List JournalEntry
  salesJournal : List JournalEntry
  cashReceipts : List CashReceipt
  cashDisbursements : List CashDisbursement
  nextId : Nat
  now : Nat
deriving DecidableEq, Repr

/-- `uid()`: fresh id from the external generator. -/
def uid (s : AppState) : Nat × AppState :=
  (s.nextId, { s with nextId := s.nextId + 1 })

/-- JavaScript string fallback `a || b` (empty string is falsy). -/
def strOr (a b : String) : String :=
  if a = "" then b else a

/-- JavaScript `v || null` on an optional number (`0` is falsy). -/
def orNull (q : Option Int) : Option Int :=
  match q with
  | some 0 => none
  | x => x

/-- JavaScript `Math.max` (kernel-reducible, unlike the lattice `max`
instance). -/
def qmax (a b : Int) : Int := if a ≤ b then b else a

/-- JavaScript `Math.min`. -/
def qmin (a b : Int) : Int := if a ≤ b then a else b

/-- Mutate the first element satisfying `p` in place (JavaScript
`arr.find(p)` followed by mutation of the found object). -/
def updateFirst (p : α → Bool) (f : α → α) : List α → List α
  | [] => []
  | x :: xs => if p x then f x :: xs else x :: updateFirst p f xs

/-- `addLog(itemId, action, qtyChange, note)`: prepend an audit entry
(`logs.unshift`), snapshotting the item's current quantity. -/
def addLog (s : AppState) (itemId : Option Nat) (action : LogAction)
    (qtyChange : Int) (note : String) : AppState :=
  let item : Option InventoryItem := match itemId with
    | some iid => s.inventory.find? (fun i => i.id = iid)
    | none => none
  let balance := item.map (fun i => i.quantity)
  let (eid, s1) := uid s
  let entry : AuditLogEntry :=
    { id := eid
      timestamp := s1.now
      itemId := itemId
      itemName := match item with
        | some i => i.name
        | none => note
      action := action
      qtyChange := qtyChange
      balanceAfter := balance
      note := note }
  { s1 with logs := entry :: s1.logs }

/-- `revertTransactionInventory(txn)`: undo the transaction's inventory
effect.  Returns the (possibly updated) state and `some` error when the
linked item no longer exists. -/
def revertTransactionInventory (s : AppState) (txn : Transaction) :
    AppState × Option InvError :=
  match txn.invId with
  | none => (s, none)
  | some iid =>
    match s.inventory.find? (fun i => i.id = iid) with
    | none => (s, some InvError.itemNotFound)
    | some _ =>
      let qty := txn.invQty.getD 0
      match txn.type with
      | TxnType.revenue =>
        let inv1 := updateFirst (fun i => i.id = iid)
          (fun i => { i with quantity := i.quantity + qty }) s.inventory
        let s1 := { s with inventory := inv1 }
        (addLog s1 (some iid) LogAction.restore qty
          ("Restore from revert of sale tx " ++ toString txn.id), none)
      | TxnType.expense =>
        let inv1 := updateFirst (fun i => i.id = iid)
          (fun i => { i with quantity := i.quantity - qty }) s.inventory
        let s1 := { s with inventory := inv1 }
        (addLog s1 (some iid) LogAction.restore (-qty)
          ("Restore (remove) from revert of purchase tx " ++ toString txn.id), none)

/-- `applyTransactionInventory(txn)`: apply the transaction's inventory
effect; also returns the transaction with its `invCost` field updated
(the source mutates `txn` in place). -/
def applyTransactionInventory (s : AppState) (txn : Transaction) :
    AppState × Transaction × Option InvError :=
  match txn.invId with
  | none => (s, { txn with invCost := 0 }, none)
  | some iid =>
    match s.inventory.find? (fun i => i.id = iid) with
    | none => (s, txn, some InvError.itemNotFound)
    | some inv =>
      let qty := txn.invQty.getD 0
      match txn.type with
      | TxnType.revenue =>
        if inv.quantity < qty then
          (s, txn, some InvError.insufficientStock)
        else
          let inv1 := updateFirst (fun i => i.id = iid)
            (fun i => { i with quantity := i.quantity - qty }) s.inventory
          let s1 := { s with inventory := inv1 }
          let txn1 := { txn with invCost := inv.unitPrice * (qty : Int) }
          (addLog s1 (some iid) LogAction.sale (-qty)
            ("Sale tx " ++ toString txn.id), txn1, none)
      | TxnType.expense =>
        let inv1 := updateFirst (fun i => i.id = iid)
          (fun i => { i with quantity := i.quantity + qty }) s.inventory
        let s1 := { s with inventory := inv1 }
        let txn1 := { txn with invCost := 0 }
        (addLog s1 (some iid) LogAction.purchase qty
          ("Purchase tx " ++ toString txn.id), txn1, none)

/-- `removeJournalEntriesForTxn(txnId)`: drop Purchases/Sales/Disbursement
rows keyed by the transaction id (receipts are not touched here). -/
def removeJournalEntriesForTxn (s : AppState) (txnId : Nat) : AppState :=
  { s with
    purchasesJournal := s.purchasesJournal.filter (fun j => j.txnId ≠ txnId)
    salesJournal := s.salesJournal.filter (fun j => j.txnId ≠ txnId)
    cashDisbursements := s.cashDisbursements.filter (fun j => j.txnId ≠ txnId) }

/-- `createJournalFromTransaction(txn)`: remove stale rows for the id,
then project the transaction into the Sales or Purchases journal (with
cash mirroring into Receipts/Disbursements) or, for a plain expense,
directly into Cash Disbursements. -/
def createJournalFromTransaction (s : AppState) (txn : Transaction) : AppState :=
  let s := removeJournalEntriesForTxn s txn.id
  match txn.type with
  | TxnType.revenue =>
    let (eid, s) := uid s
    let entry : JournalEntry :=
      { id := eid
        txnId := txn.id
        date := txn.date
        description := txn.description
        amount := txn.amount
        invId := txn.invId
        invQty := orNull txn.invQty
        paymentMethod := txn.paymentMethod
        customer := txn.customer
        supplier := ""
        paidAmount := if txn.paymentMethod = PaymentMethod.cash then txn.amount else 0
        paid := txn.paymentMethod = PaymentMethod.cash }
    let s := { s with salesJournal := entry :: s.salesJournal }
    if entry.paid then
      let (rid, s) := uid s
      let receipt : CashReceipt :=
        { id := rid
          date := txn.date
          fromName := strOr entry.customer (strOr entry.description "Customer")
          amount := txn.amount
          saleId := entry.id
          note := "Cash sale (paid in full)" }
      { s with cashReceipts := receipt :: s.cashReceipts }
    else s
  | TxnType.expense =>
    match txn.invId with
    | some iid =>
      let (eid, s) := uid s
      let entry : JournalEntry :=
        { id := eid
          txnId := txn.id
          date := txn.date
          description := txn.description
          amount := txn.amount
          invId := some iid
          invQty := txn.invQty
          paymentMethod := txn.paymentMethod
          customer := ""
          supplier := txn.supplier
          paidAmount := if txn.paymentMethod = PaymentMethod.cash then txn.amount else 0
          paid := txn.paymentMethod = PaymentMethod.cash }
      let s := { s with purchasesJournal := entry :: s.purchasesJournal }
      if entry.paid then
        let (did, s) := uid s
        let disb : CashDisbursement :=
          { id := did
            date := txn.date
            description := strOr entry.supplier (strOr entry.description "Purchase")
            amount := txn.amount
            txnId := entry.txnId
            note := "Cash purchase (paid in full)" }
        { s with cashDisbursements := disb :: s.cashDisbursements }
      else s
    | none =>
      let (eid, s) := uid s
      let entry : CashDisbursement :=
        { id := eid
          txnId := txn.id
          date := txn.date
          description := txn.description
          amount := txn.amount
          note := "" }
      { s with cashDisbursements := entry :: s.cashDisbursements }

/-- The Purchases loop of `updateJournalFromTxn`: field-patch every entry
with the edited transaction's id; when the method is Cash and the entry
is not fully paid, force-settle and unshift a disbursement for the
shortfall.  Threads the live `cashDisbursements` list and the id
counter. -/
def updatePurchList (txn : Transaction) (js : List JournalEntry)
    (ds : List CashDisbursement) (n : Nat) :
    List JournalEntry × List CashDisbursement × Nat :=
  match js with
  | [] => ([], ds, n)
  | j :: rest =>
    let step : JournalEntry × List CashDisbursement × Nat :=
      if j.txnId = txn.id then
        let j1 : JournalEntry :=
          { j with
            date := txn.date
            description := txn.description
            amount := txn.amount
            invQty := orNull txn.invQty
            invId := txn.invId
            paymentMethod := txn.paymentMethod
            supplier := strOr txn.supplier j.supplier }
        let j2 := { j1 with paid := decide (j1.paidAmount ≥ j1.amount) }
        if j2.paymentMethod = PaymentMethod.cash ∧ j2.paid = false then
          let payLeft := qmax 0 (j2.amount - j2.paidAmount)
          if 0 < payLeft then
            let j3 := { j2 with paidAmount := j2.amount, paid := true }
            let d : CashDisbursement :=
              { id := n
                date := txn.date
                description := strOr j3.supplier (strOr j3.description "Purchase")
                amount := payLeft
                txnId := j3.txnId
                note := "Marked paid on edit (diff)" }
            (j3, d :: ds, n + 1)
          else (j2, ds, n)
        else
          let j3 := if j2.paidAmount > j2.amount then { j2 with paidAmount := j2.amount } else j2
          let j4 := { j3 with paid := decide (j3.paidAmount ≥ j3.amount) }
          (j4, ds, n)
      else (j, ds, n)
    let pr := updatePurchList txn rest step.2.1 step.2.2
    (step.1 :: pr.1, pr.2.1, pr.2.2)

/-- The Sales loop of `updateJournalFromTxn`: analogous to the Purchases
loop, with the forced-settlement receipt keyed by the sale entry's own
id. -/
def updateSalesList (txn : Transaction) (js : List JournalEntry)
    (rs : List CashReceipt) (n : Nat) :
    List JournalEntry × List CashReceipt × Nat :=
  match js with
  | [] => ([], rs, n)
  | j :: rest =>
    let step : JournalEntry × List CashReceipt × Nat :=
      if j.txnId = txn.id then
        let j1 : JournalEntry :=
          { j with
            date := txn.date
            description := txn.description
            amount := txn.amount
            invQty := orNull txn.invQty
            invId := txn.invId
            paymentMethod := txn.paymentMethod
            customer := strOr txn.customer j.customer }
        let j2 := { j1 with paid := decide (j1.paidAmount ≥ j1.amount) }
        if j2.paymentMethod = PaymentMethod.cash ∧ j2.paid = false then
          let payLeft := qmax 0 (j2.amount - j2.paidAmount)
          if 0 < payLeft then
            let j3 := { j2 with paidAmount := j2.amount, paid := true }
            let r : CashReceipt :=
              { id := n
                date := txn.date
                fromName := strOr j3.customer (strOr j3.description "Customer")
                amount := payLeft
                saleId := j3.id
                note := "Marked paid on edit (diff)" }
            (j3, r :: rs, n + 1)
          else (j2, rs, n)
        else
          let j3 := if j2.paidAmount > j2.amount then { j2 with paidAmount := j2.amount } else j2
          let j4 := { j3 with paid := decide (j3.paidAmount ≥ j3.amount) }
          (j4, rs, n)
      else (j, rs, n)
    let pr := updateSalesList txn rest step.2.1 step.2.2
    (step.1 :: pr.1, pr.2.1, pr.2.2)

/-- `updateJournalFromTxn(txn)`: run the Purchases loop, the Sales loop,
then the final pass that field-patches every cash disbursement whose
`txnId` matches the edited transaction (the "regular expense" pass; it
also matches purchase-linked disbursements, including the one just
created for the shortfall). -/
def updateJournalFromTxn (s : AppState) (txn : Transaction) : AppState :=
  let pr := updatePurchList txn s.purchasesJournal s.cashDisbursements s.nextId
  let sr := updateSalesList txn s.salesJournal s.cashReceipts pr.2.2
  let ds2 := pr.2.1.map (fun d =>
    if d.txnId = txn.id then
      { d with date := txn.date, description := txn.description, amount := txn.amount }
    else d)
  { s with
    purchasesJournal := pr.1
    salesJournal := sr.1
    cashReceipts := sr.2.1
    cashDisbursements := ds2
    nextId := sr.2.2 }

/-- JavaScript `findIndex` + `splice(idx,1)`: remove the first element
satisfying `p`. -/
def removeFirst (p : α → Bool) : List α → List α
  | [] => []
  | x :: xs => if p x then xs else x :: removeFirst p xs

/-- `addTransaction(txn)`: push to the store and run the journal
creation path. -/
def addTransaction (s : AppState) (txn : Transaction) : AppState :=
  createJournalFromTransaction
    { s with transactions := s.transactions ++ [txn] } txn

/-- The cascade part of `deleteTransaction`: drop receipts linked to the
sale row, disbursements linked to the purchase row, then the
transaction itself and every journal row keyed by its id. -/
def deleteCascade (st : AppState) (id : Nat) : AppState :=
  let st1 := match st.salesJournal.find? (fun x => x.txnId = id) with
    | some saleJ =>
      { st with cashReceipts := st.cashReceipts.filter (fun r => r.saleId ≠ saleJ.id) }
    | none => st
  let st2 := match st1.purchasesJournal.find? (fun x => x.txnId = id) with
    | some purchJ =>
      { st1 with cashDisbursements :=
          st1.cashDisbursements.filter (fun d => d.txnId ≠ purchJ.txnId) }
    | none => st1
  { st2 with
    transactions := removeFirst (fun t => t.id = id) st2.transactions
    purchasesJournal := st2.purchasesJournal.filter (fun j => j.txnId ≠ id)
    salesJournal := st2.salesJournal.filter (fun j => j.txnId ≠ id)
    cashDisbursements := st2.cashDisbursements.filter (fun j => j.txnId ≠ id) }

/-- `deleteTransaction(id)`: revert the inventory effect (skipped when
the linked item no longer exists), gated by a confirmation when
reverting a purchase would drive stock negative, then cascade-remove
the transaction and its journal rows.  `confirmNeg` models the user's
answer to the `confirm(...)` prompt. -/
def deleteTransaction (s : AppState) (id : Nat) (confirmNeg : Bool) : AppState :=
  match s.transactions.find? (fun t => t.id = id) with
  | none => s
  | some txn =>
    match txn.invId with
    | none => deleteCascade s id
    | some iid =>
      match s.inventory.find? (fun i => i.id = iid) with
      | none => deleteCascade s id
      | some inv =>
        let qty := txn.invQty.getD 0
        let newQty : Int :=
          match txn.type with
          | TxnType.revenue => inv.quantity + qty
          | TxnType.expense => inv.quantity - qty
        if txn.type = TxnType.expense ∧ newQty < 0 ∧ confirmNeg = false then s
        else
          let rr := revertTransactionInventory s txn
          match rr.2 with
          | some _ => rr.1
          | none => deleteCascade rr.1 id

/-- The transaction form's fields as read by `commitTransactionForm`
(empty select value becomes `none`, empty quantity input parses to 0). -/
structure TxnForm where
  description : String
  amount : Int
  type : TxnType
  invId : Option Nat
  invQty : Int
  paymentMethod : PaymentMethod
  customer : String
  supplier : String
deriving DecidableEq, Repr

/-- The transaction object literal built inside `commitTransactionForm`
from the form fields (shared by the create and edit paths). -/
def buildTxn (s : AppState) (tid : Nat) (form : TxnForm) : Transaction :=
  { id := tid
    description := form.description
    amount := form.amount
    type := form.type
    invId := form.invId
    invQty := if form.invId.isSome then some form.invQty else none
    invName := match form.invId with
      | some iid => some (((s.inventory.find? (fun i => i.id = iid)).map
          (fun i => i.name)).getD "")
      | none => none
    invCost := 0
    paymentMethod := form.paymentMethod
    customer := if form.type = TxnType.revenue then form.customer else ""
    supplier := if form.type = TxnType.expense ∧ form.invId.isSome then form.supplier else ""
    date := s.now }

/-- `commitTransactionForm()`: validate the form, then either the edit
path (`editId` set: revert original, apply candidate, roll back on
failure, else overwrite in place and run the journal update path) or
the create path (apply, then store and run the journal creation
path). -/
def commitTransactionForm (s : AppState) (editId : Option Nat) (form : TxnForm) : AppState :=
  if form.description = "" ∨ form.amount ≤ 0 then s
  else if form.invId.isSome ∧ form.invQty ≤ 0 then s
  else
    match editId with
    | some eid =>
      match s.transactions.find? (fun t => t.id = eid) with
      | none => s
      | some txn =>
        let (s1, rerr) :=
          if txn.invId.isSome then revertTransactionInventory s txn else (s, none)
        match rerr with
        | some _ => s1
        | none =>
          let newTxn := buildTxn s1 txn.id form
          let (s2, t2, aerr) := applyTransactionInventory s1 newTxn
          match aerr with
          | some _ =>
            let (s3, _, _) := applyTransactionInventory s2 txn
            s3
          | none =>
            let txs := updateFirst (fun t => t.id = eid) (fun _ => t2) s2.transactions
            let s4 := { s2 with transactions := txs }
            updateJournalFromTxn s4 t2
    | none =>
      let (tid, s0) := uid s
      let newTxn := buildTxn s0 tid form
      if newTxn.invId.isSome then
        let (sa, t1, aerr) := applyTransactionInventory s0 newTxn
        match aerr with
        | some _ => sa
        | none => addTransaction sa t1
      else addTransaction s0 { newTxn with invCost := 0 }

/-- `markSalePaid(saleId, amount)`: settle a sales journal entry (full
when `amount` is `none`, else clamped to the remaining balance) and
unshift a cash receipt for the settled amount. -/
def markSalePaid (s : AppState) (saleId : Nat) (amount : Option Int) : AppState :=
  match s.salesJournal.find? (fun x => x.id = saleId) with
  | none => s
  | some sale =>
    let remaining := qmax 0 (sale.amount - sale.paidAmount)
    let payAmt := qmin (amount.getD remaining) remaining
    if payAmt ≤ 0 then s
    else
      let sale1 := { sale with
        paidAmount := sale.paidAmount + payAmt
        paid := decide (sale.paidAmount + payAmt ≥ sale.amount) }
      let sj := updateFirst (fun x => x.id = saleId) (fun _ => sale1) s.salesJournal
      let s1 := { s with salesJournal := sj }
      let (rid, s2) := uid s1
      let receipt : CashReceipt :=
        { id := rid
          date := s2.now
          fromName := strOr sale1.customer (strOr sale1.description "Customer")
          amount := payAmt
          saleId := sale1.id
          note := if sale1.paid then "Paid in full" else "Partial payment" }
      { s2 with cashReceipts := receipt :: s2.cashReceipts }

/-- `paySupplier(purchaseId, amount)`: settle a purchases journal entry
and unshift a cash disbursement for the settled amount. -/
def paySupplier (s : AppState) (purchaseId : Nat) (amount : Option Int) : AppState :=
  match s.purchasesJournal.find? (fun x => x.id = purchaseId) with
  | none => s
  | some p =>
    let remaining := qmax 0 (p.amount - p.paidAmount)
    let payAmt := qmin (amount.getD remaining) remaining
    if payAmt ≤ 0 then s
    else
      let p1 := { p with
        paidAmount := p.paidAmount + payAmt
        paid := decide (p.paidAmount + payAmt ≥ p.amount) }
      let pj := updateFirst (fun x => x.id = purchaseId) (fun _ => p1) s.purchasesJournal
      let s1 := { s with purchasesJournal := pj }
      let (did, s2) := uid s1
      let disb : CashDisbursement :=
        { id := did
          date := s2.now
          description := strOr p1.supplier (strOr p1.description "Supplier")
          amount := payAmt
          txnId := p1.txnId
          note := if p1.paid then "Paid in full" else "Partial payment" }
      { s2 with cashDisbursements := disb :: s2.cashDisbursements }

/-- `handleStockAdjust`: the stock-adjust mini-form.  `'add'` builds a
purchase expense transaction and routes it through the normal apply and
journal-creation paths; the remove action mutates quantity directly and
writes a `'manual'` audit entry (confirmation required when it would
drive stock negative). -/
def handleStockAdjust (s : AppState) (itemId : Nat) (qty : Int)
    (action : StockAction) (pm : PaymentMethod) (confirmNeg : Bool) : AppState :=
  if qty ≤ 0 then s
  else
    match s.inventory.find? (fun i => i.id = itemId) with
    | none => s
    | some it =>
      match action with
      | StockAction.add =>
        let amount := it.unitPrice * (qty : Int)
        let (tid, s0) := uid s
        let newTxn : Transaction :=
          { id := tid
            description := "Purchase - " ++ it.name
            amount := amount
            type := TxnType.expense
            invId := some it.id
            invQty := some qty
            invName := some it.name
            invCost := 0
            paymentMethod := pm
            customer := ""
            supplier := ""
            date := s0.now }
        let (s1, t1, aerr) := applyTransactionInventory s0 newTxn
        match aerr with
        | some _ => s1
        | none => addTransaction s1 t1
      | StockAction.removeStock =>
        if it.quantity < qty ∧ confirmNeg = false then s
        else
          let inv1 := updateFirst (fun i => i.id = itemId)
            (fun i => { i with quantity := i.quantity - qty }) s.inventory
          let s1 := { s with inventory := inv1 }
          addLog s1 (some itemId) LogAction.manual (-qty) "Manual remove"

/-- The `inventoryForm` submit handler: create a new item (with an
initial-stock audit entry when the starting quantity is nonzero) or
edit an existing one (logging the starting-quantity delta when it
changed). -/
def inventoryFormSubmit (s : AppState) (editingId : Option Nat)
    (name desc cat : String) (price : Int) (qtyStart : Int) : AppState :=
  if name = "" ∨ price < 0 then s
  else
    match editingId with
    | some eid =>
      match s.inventory.find? (fun i => i.id = eid) with
      | none => s
      | some it =>
        if it.quantity ≠ qtyStart then
          let f : InventoryItem → InventoryItem := fun i =>
            { i with
              name := name
              description := desc
              category := cat
              unitPrice := price
              quantity := qtyStart }
          let inv1 := updateFirst (fun i => i.id = eid) f s.inventory
          let s1 := { s with inventory := inv1 }
          addLog s1 (some eid) LogAction.manual (qtyStart - it.quantity)
            "Edit item starting qty adjusted"
        else
          let f : InventoryItem → InventoryItem := fun i =>
            { i with
              name := name
              description := desc
              category := cat
              unitPrice := price }
          let inv1 := updateFirst (fun i => i.id = eid) f s.inventory
          { s with inventory := inv1 }
    | none =>
      let (iid, s0) := uid s
      let item : InventoryItem :=
        { id := iid, name := name, description := desc, category := cat,
          unitPrice := price, quantity := qtyStart }
      let s1 := { s0 with inventory := s0.inventory ++ [item] }
      if qtyStart ≠ 0 then
        addLog s1 (some iid) LogAction.manual qtyStart "Initial stock on item creation"
      else s1

/-- The inventory `inv-del` click handler: purge the item's audit-log
entries and remove the item; transactions are not touched. -/
def deleteInventoryItem (s : AppState) (id : Nat) : AppState :=
  { s with
    logs := s.logs.filter (fun l => l.itemId ≠ some id)
    inventory := s.inventory.filter (fun x => x.id ≠ id) }

/-- One user-level core operation, for stating "after every core
operation" invariants. -/
inductive CoreOp where
  | commitForm (editId : Option Nat) (form : TxnForm)
  | delTxn (id : Nat) (confirmNeg : Bool)
  | settleSale (saleId : Nat) (amount : Option Int)
  | settlePurchase (purchaseId : Nat) (amount : Option Int)
  | stockAdjust (itemId : Nat) (qty : Int) (action : StockAction)
      (pm : PaymentMethod) (confirmNeg : Bool)
  | invForm (editingId : Option Nat) (name desc cat : String) (price : Int) (qtyStart : Int)
  | delItem (id : Nat)
deriving Repr

/-- Dispatch a core operation to its handler. -/
def runOp (s : AppState) : CoreOp → AppState
  | CoreOp.commitForm editId form => commitTransactionForm s editId form
  | CoreOp.delTxn id c => deleteTransaction s id c
  | CoreOp.settleSale sid a => markSalePaid s sid a
  | CoreOp.settlePurchase pid a => paySupplier s pid a
  | CoreOp.stockAdjust iid q act pm c => handleStockAdjust s iid q act pm c
  | CoreOp.invForm eid n d c p q => inventoryFormSubmit s eid n d c p q
  | CoreOp.delItem id => deleteInventoryItem s id

/-- Sum of `qtyChange` over the audit entries of one item. -/
def logSum (logs : List AuditLogEntry) (k : Nat) : Int :=
  ((logs.filter (fun l => l.itemId = some k)).map (fun l => l.qtyChange)).sum

/-- Invariant I2: counting the item-creation entry as part of the item's
history, the audit entries of each surviving item sum to its current
quantity (equivalently, entries after the creation entry sum to
quantity minus the initial creation quantity). -/
def InvAudit (s : AppState) : Prop :=
  ∀ it ∈ s.inventory, logSum s.logs it.id = it.quantity

/-- Inventory item ids are pairwise distinct (the external id generator
never repeats). -/
def InvIdsNodup (s : AppState) : Prop :=
  (s.inventory.map (fun i => i.id)).Nodup

/-- The next id from the generator is genuinely fresh for the audit
trail and the item list. -/
def FreshId (s : AppState) : Prop :=
  (∀ l ∈ s.logs, l.itemId ≠ some s.nextId) ∧ (∀ it ∈ s.inventory, it.id ≠ s.nextId)

/-- Invariant I3: `txnId` values are pairwise distinct in a journal. -/
def txnIdUnique (l : List JournalEntry) : Prop :=
  (l.map (fun j => j.txnId)).Nodup

/-- A fresh empty store (state right after the one-time trial reset). -/
def emptyState : AppState :=
  { transactions := []
    inventory := []
    logs := []
    purchasesJournal := []
    salesJournal := []
    cashReceipts := []
    cashDisbursements := []
    nextId := 1
    now := 5 }

/-- C1 counterexample: an item whose stock was driven negative after the
sale was recorded (sale of 5, then manual removals below zero). -/
def exC1item : InventoryItem :=
  { id := 10, name := "W", description := "", category := "", unitPrice := 10, quantity := -1 }

/-- C1 counterexample: the recorded sale of 5 units being edited. -/
def exC1txn : Transaction :=
  { id := 1, description := "sale", amount := 50, type := TxnType.revenue,
    invId := some 10, invQty := some 5, invName := some "W", invCost := 50,
    paymentMethod := PaymentMethod.cash, customer := "", supplier := "", date := 0 }

/-- C1 counterexample: pre-edit state. -/
def exC1state : AppState :=
  { emptyState with inventory := [exC1item], transactions := [exC1txn], nextId := 100 }

/-- C1 counterexample: the edit raises the sale quantity from 5 to 6. -/
def exC1form : TxnForm :=
  { description := "sale", amount := 60, type := TxnType.revenue, invId := some 10,
    invQty := 6, paymentMethod := PaymentMethod.cash, customer := "", supplier := "" }

/-- C1 witness: same shape but with non-negative pre-edit stock, so the
rollback re-apply succeeds. -/
def wC1state : AppState :=
  { exC1state with inventory := [{ exC1item with quantity := 2 }] }

/-- C1 witness: the edit raises the sale quantity from 5 to 100. -/
def wC1form : TxnForm := { exC1form with invQty := 100 }

/-- C1 witness: state after reverting the original sale. -/
def wC1s1 : AppState := (revertTransactionInventory wC1state exC1txn).1

/-- C1 witness: state returned by the failed candidate apply. -/
def wC1s2 : AppState := (applyTransactionInventory wC1s1 (buildTxn wC1s1 1 wC1form)).1

/-- C1 witness: transaction returned by the failed candidate apply. -/
def wC1t2 : Transaction := (applyTransactionInventory wC1s1 (buildTxn wC1s1 1 wC1form)).2.1

/-- C1 witness: state after the successful rollback re-apply. -/
def wC1s3 : AppState := (applyTransactionInventory wC1s2 exC1txn).1

/-- C1 witness: transaction returned by the rollback re-apply. -/
def wC1t3 : Transaction := (applyTransactionInventory wC1s2 exC1txn).2.1

/-- C2: a transaction linked to inventory item 10, which no longer
exists in the store. -/
def exC2state : AppState := { emptyState with transactions := [exC1txn] }

/-- C5/C6 witness: a small store with one item of quantity 2. -/
def wItem : InventoryItem :=
  { id := 3, name := "Gadget", description := "", category := "", unitPrice := 7, quantity := 2 }

/-- C5/C6 witness: store holding `wItem`. -/
def wState : AppState := { emptyState with inventory := [wItem], nextId := 20 }

/-- C6 witness: a sale of 5 units (more than the stock of 2). -/
def wSaleTxn : Transaction :=
  { id := 2, description := "s", amount := 35, type := TxnType.revenue,
    invId := some 3, invQty := some 5, invName := some "Gadget", invCost := 0,
    paymentMethod := PaymentMethod.credit, customer := "", supplier := "", date := 0 }

/-- C5 witness: a sale of 2 units (exactly the stock). -/
def wSale2Txn : Transaction := { wSaleTxn with invQty := some 2, amount := 14 }

/-- C7 failing input: a credit purchase entry of 100 with 40 already
paid. -/
def exC7entry : JournalEntry :=
  { id := 50, txnId := 7, date := 0, description := "p", amount := 100,
    invId := some 1, invQty := some 3, paymentMethod := PaymentMethod.credit,
    customer := "", supplier := "S", paidAmount := 40, paid := false }

/-- C7 failing input: the edited transaction switches the method to
Cash. -/
def exC7txn : Transaction :=
  { id := 7, description := "p", amount := 100, type := TxnType.expense,
    invId := some 1, invQty := some 3, invName := some "Widget", invCost := 0,
    paymentMethod := PaymentMethod.cash, customer := "", supplier := "S", date := 9 }

/-- C7 failing input: store holding the partially paid purchase entry. -/
def exC7state : AppState := { emptyState with purchasesJournal := [exC7entry], nextId := 60 }

/-- C4 witness: a credit sale entry of 100, nothing paid yet. -/
def wC4entry : JournalEntry :=
  { exC7entry with id := 5, customer := "C", supplier := "", paidAmount := 0 }

/-- C4 witness: store with the credit sale entry in both journals (ids
distinct per journal, so both settle paths can be exercised). -/
def wC4state : AppState :=
  { emptyState with salesJournal := [wC4entry], purchasesJournal := [{ wC4entry with id := 6 }] }

/-- C3/C8 witness: store with one item and one recorded purchase entry,
used to exercise the preserved invariants. -/
def wC3state : AppState :=
  { emptyState with
    inventory := [wItem]
    logs := [{ id := 11, timestamp := 0, itemId := some 3, itemName := "Gadget",
               action := LogAction.manual, qtyChange := 2, balanceAfter := some 2,
               note := "Initial stock on item creation" }]
    purchasesJournal := [{ exC7entry with txnId := 8 }]
    salesJournal := [{ exC7entry with id := 51, txnId := 9 }]
    nextId := 20 }

/-- A sequence of settle calls on one sales journal entry (each element
is the optional partial amount; `none` is a full settlement). -/
def settleSaleCalls (s : AppState) (sid : Nat) (calls : List (Option Int)) : AppState :=
  calls.foldl (fun st a => markSalePaid st sid a) s

/-- A sequence of settle calls on one purchases journal entry. -/
def settlePurchaseCalls (s : AppState) (pid : Nat) (calls : List (Option Int)) : AppState :=
  calls.foldl (fun st a => paySupplier st pid a) s

theorem updateFirst_of_find?_none {p : α → Bool} (f : α → α) {l : List α}
    (h : l.find? p = none) : updateFirst p f l = l := by
  induction l with
  | nil => rfl
  | cons a as ih =>
    rw [List.find?_eq_none] at h
    have ha : ¬ p a = true := h a (List.mem_cons_self a as)
    have has : as.find? p = none :=
      List.find?_eq_none.mpr (fun x hx => h x (List.mem_cons_of_mem a hx))
    simp [updateFirst, ha, ih has]

theorem find?_updateFirst {p : α → Bool} {f : α → α} (hp : ∀ y, p (f y) = p y)
    {l : List α} {x : α} (h : l.find? p = some x) :
    (updateFirst p f l).find? p = some (f x) := by
  induction l with
  | nil => simp at h
  | cons a as ih =>
    by_cases ha : p a
    · rw [List.find?_cons_of_pos _ ha] at h
      injection h with h
      subst h
      have hfa : p (f a) = true := by rw [hp]; exact ha
      simp [updateFirst, ha, List.find?_cons_of_pos _ hfa]
    · rw [List.find?_cons_of_neg _ ha] at h
      have step : updateFirst p f (a :: as) = a :: updateFirst p f as := by
        simp [updateFirst, ha]
      rw [step, List.find?_cons_of_neg _ ha]
      exact ih h

theorem updateFirst_updateFirst {p : α → Bool} (f g : α → α) (hp : ∀ y, p (f y) = p y)
    (l : List α) : updateFirst p g (updateFirst p f l) = updateFirst p (fun y => g (f y)) l := by
  induction l with
  | nil => rfl
  | cons a as ih =>
    by_cases ha : p a
    · have hfa : p (f a) = true := by rw [hp]; exact ha
      simp [updateFirst, ha, hfa]
    · simp [updateFirst, ha, ih]

theorem updateFirst_congr {p : α → Bool} {f g : α → α} (h : ∀ y, f y = g y)
    (l : List α) : updateFirst p f l = updateFirst p g l := by
  induction l with
  | nil => rfl
  | cons a as ih => by_cases ha : p a <;> simp [updateFirst, ha, h, ih]

theorem updateFirst_id {p : α → Bool} (l : List α) :
    updateFirst p (fun y => y) l = l := by
  induction l with
  | nil => rfl
  | cons a as ih => by_cases ha : p a <;> simp [updateFirst, ha, ih]

theorem updateFirst_congr_find {p : α → Bool} {f g : α → α} {l : List α} {x : α}
    (h : l.find? p = some x) (hfg : f x = g x) :
    updateFirst p f l = updateFirst p g l := by
  induction l with
  | nil => rfl
  | cons a as ih =>
    by_cases ha : p a
    · rw [List.find?_cons_of_pos _ ha] at h
      injection h with h
      subst h
      simp [updateFirst, ha, hfg]
    · rw [List.find?_cons_of_neg _ ha] at h
      simp [updateFirst, ha, ih h]

theorem updateFirst_map_key {β : Type _} (key : α → β) {p : α → Bool} {f : α → α}
    (hk : ∀ y, key (f y) = key y) (l : List α) :
    (updateFirst p f l).map key = l.map key := by
  induction l with
  | nil => rfl
  | cons a as ih => by_cases ha : p a <;> simp [updateFirst, ha, hk, ih]

theorem updateFirst_eq_map_of_nodup (key : α → Nat) (k : Nat) (f : α → α)
    (l : List α) (hnd : (l.map key).Nodup) :
    updateFirst (fun x => key x = k) f l
      = l.map (fun x => if key x = k then f x else x) := by
  induction l with
  | nil => rfl
  | cons a as ih =>
    simp only [List.map_cons, List.nodup_cons] at hnd
    by_cases ha : key a = k
    · have hmem : ∀ x ∈ as, (if key x = k then f x else x) = x := by
        intro x hx
        have hne : ¬ key x = k := by
          intro hkx
          have hm : key x ∈ List.map key as := List.mem_map_of_mem key hx
          rw [hkx, ← ha] at hm
          exact hnd.1 hm
        simp [hne]
      have h1 : (fun x => decide (key x = k)) a = true := by simp [ha]
      simp only [updateFirst]
      rw [if_pos h1, List.map_cons, if_pos ha, List.map_congr_left hmem, List.map_id']
    · have h1 : ¬ ((fun x => decide (key x = k)) a = true) := by simp [ha]
      simp only [updateFirst, List.map_cons]
      rw [if_neg h1, if_neg ha, ih hnd.2]

theorem addLog_frame (s : AppState) (itemId : Option Nat) (a : LogAction)
    (q : Int) (n : String) :
    (addLog s itemId a q n).inventory = s.inventory ∧
    (addLog s itemId a q n).transactions = s.transactions ∧
    (addLog s itemId a q n).purchasesJournal = s.purchasesJournal ∧
    (addLog s itemId a q n).salesJournal = s.salesJournal ∧
    (addLog s itemId a q n).cashReceipts = s.cashReceipts ∧
    (addLog s itemId a q n).cashDisbursements = s.cashDisbursements :=
  ⟨rfl, rfl, rfl, rfl, rfl, rfl⟩

theorem addLog_logs (s : AppState) (itemId : Option Nat) (a : LogAction)
    (q : Int) (n : String) :
    ∃ e : AuditLogEntry, (addLog s itemId a q n).logs = e :: s.logs ∧
      e.itemId = itemId ∧ e.qtyChange = q ∧ e.action = a :=
  ⟨_, rfl, rfl, rfl, rfl⟩

theorem addLog_inventory (s : AppState) (itemId : Option Nat) (a : LogAction)
    (q : Int) (n : String) : (addLog s itemId a q n).inventory = s.inventory := rfl

theorem apply_error_frame (s : AppState) (txn : Transaction) (e : InvError)
    (h : (applyTransactionInventory s txn).2.2 = some e) :
    (applyTransactionInventory s txn).1 = s ∧
    (applyTransactionInventory s txn).2.1 = txn := by
  cases hinv : txn.invId with
  | none => simp [applyTransactionInventory, hinv] at h
  | some iid =>
    cases hfind : s.inventory.find? (fun i => i.id = iid) with
    | none => simp [applyTransactionInventory, hinv, hfind]
    | some inv =>
      cases htype : txn.type with
      | revenue =>
        by_cases hq : inv.quantity < txn.invQty.getD 0
        · simp [applyTransactionInventory, hinv, hfind, htype, hq]
        · simp [applyTransactionInventory, hinv, hfind, htype, hq] at h
      | expense => simp [applyTransactionInventory, hinv, hfind, htype] at h

theorem apply_frame (s : AppState) (txn : Transaction) :
    (applyTransactionInventory s txn).1.transactions = s.transactions ∧
    (applyTransactionInventory s txn).1.purchasesJournal = s.purchasesJournal ∧
    (applyTransactionInventory s txn).1.salesJournal = s.salesJournal ∧
    (applyTransactionInventory s txn).1.cashReceipts = s.cashReceipts ∧
    (applyTransactionInventory s txn).1.cashDisbursements = s.cashDisbursements ∧
    (applyTransactionInventory s txn).1.inventory.map (fun i => i.id)
      = s.inventory.map (fun i => i.id) := by
  cases hinv : txn.invId with
  | none => simp [applyTransactionInventory, hinv]
  | some iid =>
    cases hfind : s.inventory.find? (fun i => i.id = iid) with
    | none => simp [applyTransactionInventory, hinv, hfind]
    | some inv =>
      cases htype : txn.type with
      | revenue =>
        by_cases hq : inv.quantity < txn.invQty.getD 0
        · simp [applyTransactionInventory, hinv, hfind, htype, hq]
        · simp only [applyTransactionInventory, hinv, hfind, htype, if_neg hq]
          refine ⟨rfl, rfl, rfl, rfl, rfl, ?_⟩
          rw [addLog_inventory]
          apply updateFirst_map_key
          intro y
          rfl
      | expense =>
        simp only [applyTransactionInventory, hinv, hfind, htype]
        refine ⟨rfl, rfl, rfl, rfl, rfl, ?_⟩
        rw [addLog_inventory]
        apply updateFirst_map_key
        intro y
        rfl

theorem revert_frame (s : AppState) (txn : Transaction) :
    (revertTransactionInventory s txn).1.transactions = s.transactions ∧
    (revertTransactionInventory s txn).1.purchasesJournal = s.purchasesJournal ∧
    (revertTransactionInventory s txn).1.salesJournal = s.salesJournal ∧
    (revertTransactionInventory s txn).1.cashReceipts = s.cashReceipts ∧
    (revertTransactionInventory s txn).1.cashDisbursements = s.cashDisbursements ∧
    (revertTransactionInventory s txn).1.inventory.map (fun i => i.id)
      = s.inventory.map (fun i => i.id) := by
  cases hinv : txn.invId with
  | none => simp [revertTransactionInventory, hinv]
  | some iid =>
    cases hfind : s.inventory.find? (fun i => i.id = iid) with
    | none => simp [revertTransactionInventory, hinv, hfind]
    | some inv =>
      cases htype : txn.type with
      | revenue =>
        simp only [revertTransactionInventory, hinv, hfind, htype]
        refine ⟨rfl, rfl, rfl, rfl, rfl, ?_⟩
        rw [addLog_inventory]
        apply updateFirst_map_key
        intro y
        rfl
      | expense =>
        simp only [revertTransactionInventory, hinv, hfind, htype]
        refine ⟨rfl, rfl, rfl, rfl, rfl, ?_⟩
        rw [addLog_inventory]
        apply updateFirst_map_key
        intro y
        rfl

theorem logSum_nil (k : Nat) : logSum [] k = 0 := rfl

theorem logSum_cons (e : AuditLogEntry) (logs : List AuditLogEntry) (k : Nat) :
    logSum (e :: logs) k
      = (if e.itemId = some k then e.qtyChange else 0) + logSum logs k := by
  by_cases h : e.itemId = some k <;> simp [logSum, List.filter_cons, h]

theorem logSum_of_forall_ne (logs : List AuditLogEntry) (k : Nat)
    (h : ∀ l ∈ logs, l.itemId ≠ some k) : logSum logs k = 0 := by
  induction logs with
  | nil => rfl
  | cons e es ih =>
    rw [logSum_cons, if_neg (h e (List.mem_cons_self e es)),
      ih (fun x hx => h x (List.mem_cons_of_mem e hx)), add_zero]

theorem logSum_filter_ne (logs : List AuditLogEntry) (j k : Nat) (hjk : j ≠ k) :
    logSum (logs.filter (fun l => l.itemId ≠ some j)) k = logSum logs k := by
  induction logs with
  | nil => rfl
  | cons e es ih =>
    by_cases hej : e.itemId = some j
    · have hek : ¬ (e.itemId = some k) := by
        rw [hej]; intro hc; injection hc with hc; exact hjk hc
      rw [List.filter_cons, if_neg (by simp [hej]), ih, logSum_cons, if_neg hek, zero_add]
    · rw [List.filter_cons, if_pos (by simp [hej]), logSum_cons, ih, logSum_cons]


theorem updateFirst_qty_sub_add (iid : Nat) (d : Int) (l : List InventoryItem) :
    updateFirst (fun i => i.id = iid) (fun i => { i with quantity := i.quantity + d })
      (updateFirst (fun i => i.id = iid)
        (fun i => { i with quantity := i.quantity - d }) l) = l := by
  induction l with
  | nil => rfl
  | cons a as ih =>
    cases a with
    | mk aid an ad ac ap aq =>
      by_cases ha : aid = iid
      · simp [updateFirst, ha, Int.sub_add_cancel]
      · simp [updateFirst, ha, ih]

theorem updateFirst_qty_add_sub (iid : Nat) (d : Int) (l : List InventoryItem) :
    updateFirst (fun i => i.id = iid) (fun i => { i with quantity := i.quantity - d })
      (updateFirst (fun i => i.id = iid)
        (fun i => { i with quantity := i.quantity + d }) l) = l := by
  induction l with
  | nil => rfl
  | cons a as ih =>
    cases a with
    | mk aid an ad ac ap aq =>
      by_cases ha : aid = iid
      · simp [updateFirst, ha, Int.add_sub_cancel]
      · simp [updateFirst, ha, ih]

/-- C9: deleting an inventory item removes the item and all audit-log
entries referencing it, and leaves every transaction (and all journals)
unchanged. -/
theorem deleteInventoryItem_cascades_logs_frames_transactions (s : AppState) (id : Nat) :
    (deleteInventoryItem s id).transactions = s.transactions ∧
    (deleteInventoryItem s id).logs = s.logs.filter (fun l => l.itemId ≠ some id) ∧
    (deleteInventoryItem s id).inventory = s.inventory.filter (fun x => x.id ≠ id) ∧
    (∀ l ∈ (deleteInventoryItem s id).logs, l.itemId ≠ some id) ∧
    (∀ x ∈ (deleteInventoryItem s id).inventory, x.id ≠ id) ∧
    (deleteInventoryItem s id).purchasesJournal = s.purchasesJournal ∧
    (deleteInventoryItem s id).salesJournal = s.salesJournal ∧
    (deleteInventoryItem s id).cashReceipts = s.cashReceipts ∧
    (deleteInventoryItem s id).cashDisbursements = s.cashDisbursements := by
  refine ⟨rfl, rfl, rfl, ?_, ?_, rfl, rfl, rfl, rfl⟩
  · intro l hl
    simp only [deleteInventoryItem, List.mem_filter, decide_not] at hl
    simpa using hl.2
  · intro x hx
    simp only [deleteInventoryItem, List.mem_filter, decide_not] at hx
    simpa using hx.2

/-- C2 counterexample: transaction 1 links to item 10 which no longer
exists; `revertEffect` would fail, yet the delete does not abort — the
transaction is removed from the store rather than remaining. -/
theorem deleteTransaction_missing_item_cex :
    (revertTransactionInventory exC2state exC1txn).2 = some InvError.itemNotFound ∧
    exC2state.transactions = [exC1txn] ∧
    (deleteTransaction exC2state 1 false).transactions = [] := by
  decide

/-- C2 (amended): when the linked item no longer exists the delete skips
the revert entirely and proceeds — the transaction and its journal rows
are removed while inventory and the audit log stay untouched. -/
theorem deleteTransaction_missing_item_proceeds (s : AppState) (id : Nat)
    (txn : Transaction) (iid : Nat) (c : Bool)
    (hfind : s.transactions.find? (fun t => t.id = id) = some txn)
    (hinv : txn.invId = some iid)
    (hmiss : s.inventory.find? (fun i => i.id = iid) = none) :
    (deleteTransaction s id c).inventory = s.inventory ∧
    (deleteTransaction s id c).logs = s.logs ∧
    (deleteTransaction s id c).transactions
      = removeFirst (fun t => t.id = id) s.transactions ∧
    (deleteTransaction s id c).purchasesJournal
      = s.purchasesJournal.filter (fun j => j.txnId ≠ id) ∧
    (deleteTransaction s id c).salesJournal
      = s.salesJournal.filter (fun j => j.txnId ≠ id) := by
  cases hsale : s.salesJournal.find? (fun x => x.txnId = id) <;>
    cases hpurch : s.purchasesJournal.find? (fun x => x.txnId = id) <;>
      simp [deleteTransaction, deleteCascade, hfind, hinv, hmiss, hsale, hpurch]

theorem deleteTransaction_missing_item_proceeds_witness :
    (deleteTransaction exC2state 1 false).transactions
      = removeFirst (fun t => t.id = 1) exC2state.transactions ∧
    (deleteTransaction exC2state 1 false).inventory = exC2state.inventory :=
  ⟨(deleteTransaction_missing_item_proceeds exC2state 1 exC1txn 10 false
      (by decide) (by decide) (by decide)).2.2.1,
   (deleteTransaction_missing_item_proceeds exC2state 1 exC1txn 10 false
      (by decide) (by decide) (by decide)).1⟩

/-- C7 (code bug exhibited): editing the partially paid (40 of 100)
credit purchase to Cash auto-settles the entry, and the disbursement
tagged "Marked paid on edit (diff)" is appended with the 60 shortfall —
but the final regular-expense patch pass, whose comment restricts it to
plain expenses, also matches this purchase-linked disbursement by
`txnId` and overwrites its amount to the full 100, so the stored
disbursement does not record the shortfall. -/
theorem updateJournalFromTxn_diff_overwritten :
    ((updateJournalFromTxn exC7state exC7txn).purchasesJournal.map
        (fun j => (j.paidAmount, j.paid))) = [(100, true)] ∧
    ((updateJournalFromTxn exC7state exC7txn).cashDisbursements.map
        (fun d => (d.amount, d.note))) = [(100, "Marked paid on edit (diff)")] ∧
    exC7entry.amount - exC7entry.paidAmount = 60 ∧ ¬ ((100 : Int) = 60) := by
  decide

/-- C6: a sale's apply fails with InsufficientStock exactly when the
item's quantity is below the requested quantity (item present), and
whenever apply fails — for any transaction and any reason — the
returned state is exactly the input state: quantity and audit log are
unchanged, no partial mutation persists. -/
theorem applyTransactionInventory_insufficient_iff :
    (∀ (s : AppState) (txn : Transaction) (iid : Nat) (item : InventoryItem),
      txn.type = TxnType.revenue → txn.invId = some iid →
      s.inventory.find? (fun i => i.id = iid) = some item →
      ((applyTransactionInventory s txn).2.2 = some InvError.insufficientStock ↔
        item.quantity < txn.invQty.getD 0)) ∧
    (∀ (s : AppState) (txn : Transaction) (e : InvError),
      (applyTransactionInventory s txn).2.2 = some e →
      (applyTransactionInventory s txn).1 = s) := by
  constructor
  · intro s txn iid item htype hinv hfind
    by_cases hq : item.quantity < txn.invQty.getD 0
    · simp [applyTransactionInventory, hinv, hfind, htype, hq]
    · simp [applyTransactionInventory, hinv, hfind, htype, hq]
  · intro s txn e h
    exact (apply_error_frame s txn e h).1

theorem applyTransactionInventory_insufficient_iff_witness :
    ((applyTransactionInventory wState wSaleTxn).2.2 = some InvError.insufficientStock ↔
      wItem.quantity < wSaleTxn.invQty.getD 0) ∧
    (applyTransactionInventory wState wSaleTxn).1 = wState :=
  ⟨applyTransactionInventory_insufficient_iff.1 wState wSaleTxn 3 wItem
      (by decide) (by decide) (by decide),
   applyTransactionInventory_insufficient_iff.2 wState wSaleTxn
      InvError.insufficientStock (by decide)⟩

theorem find?_updateFirst_qty (iid : Nat) (g : InventoryItem → Int)
    {l : List InventoryItem} {x : InventoryItem}
    (h : l.find? (fun i => i.id = iid) = some x) :
    (updateFirst (fun i => i.id = iid) (fun i => { i with quantity := g i }) l).find?
      (fun i => i.id = iid) = some { x with quantity := g x } :=
  @find?_updateFirst InventoryItem (fun i => decide (i.id = iid))
    (fun i => { i with quantity := g i }) (fun _ => rfl) l x h

/-- C5: applying then reverting an inventory-linked transaction (a sale
with d ≤ stock, or a purchase with any d) succeeds, restores the
inventory exactly, and prepends exactly two audit entries for the pair,
whose qtyChange values sum to zero. -/
theorem apply_revert_inverse (s : AppState) (txn : Transaction) (iid : Nat)
    (item : InventoryItem) (d : Int)
    (hinv : txn.invId = some iid)
    (hfind : s.inventory.find? (fun i => i.id = iid) = some item)
    (hq : txn.invQty = some d)
    (hsale : txn.type = TxnType.revenue → d ≤ item.quantity) :
    (applyTransactionInventory s txn).2.2 = none ∧
    (revertTransactionInventory (applyTransactionInventory s txn).1
        (applyTransactionInventory s txn).2.1).2 = none ∧
    (revertTransactionInventory (applyTransactionInventory s txn).1
        (applyTransactionInventory s txn).2.1).1.inventory = s.inventory ∧
    (revertTransactionInventory (applyTransactionInventory s txn).1
        (applyTransactionInventory s txn).2.1).1.logs.drop 2 = s.logs ∧
    (revertTransactionInventory (applyTransactionInventory s txn).1
        (applyTransactionInventory s txn).2.1).1.logs.length = s.logs.length + 2 ∧
    (((revertTransactionInventory (applyTransactionInventory s txn).1
        (applyTransactionInventory s txn).2.1).1.logs.take 2).map
      (fun e => e.qtyChange)).sum = 0 := by
  cases htype : txn.type with
  | revenue =>
    have hnlt : ¬ (item.quantity < txn.invQty.getD 0) := by
      rw [hq]
      simp only [Option.getD_some]
      exact not_lt.mpr (hsale htype)
    have hfind2 := find?_updateFirst_qty iid
      (fun i => i.quantity - txn.invQty.getD 0) hfind
    simp only [applyTransactionInventory, hinv, hfind, htype, if_neg hnlt]
    simp only [revertTransactionInventory, addLog_inventory, hinv, htype, hfind2]
    simp only [addLog, uid, List.drop, List.take, List.map, List.length,
      List.sum_cons, List.sum_nil]
    refine ⟨trivial, trivial, ?_, trivial, trivial, by omega⟩
    simp only [hq, Option.getD_some]
    exact updateFirst_qty_sub_add iid d s.inventory
  | expense =>
    have hfind2 := find?_updateFirst_qty iid
      (fun i => i.quantity + txn.invQty.getD 0) hfind
    simp only [applyTransactionInventory, hinv, hfind, htype]
    simp only [revertTransactionInventory, addLog_inventory, hinv, htype, hfind2]
    simp only [addLog, uid, List.drop, List.take, List.map, List.length,
      List.sum_cons, List.sum_nil]
    refine ⟨trivial, trivial, ?_, trivial, trivial, by omega⟩
    simp only [hq, Option.getD_some]
    exact updateFirst_qty_add_sub iid d s.inventory

theorem apply_revert_inverse_witness :
    (applyTransactionInventory wState wSale2Txn).2.2 = none ∧
    (revertTransactionInventory (applyTransactionInventory wState wSale2Txn).1
        (applyTransactionInventory wState wSale2Txn).2.1).2 = none ∧
    (revertTransactionInventory (applyTransactionInventory wState wSale2Txn).1
        (applyTransactionInventory wState wSale2Txn).2.1).1.inventory = wState.inventory ∧
    (revertTransactionInventory (applyTransactionInventory wState wSale2Txn).1
        (applyTransactionInventory wState wSale2Txn).2.1).1.logs.drop 2 = wState.logs ∧
    (revertTransactionInventory (applyTransactionInventory wState wSale2Txn).1
        (applyTransactionInventory wState wSale2Txn).2.1).1.logs.length
      = wState.logs.length + 2 ∧
    (((revertTransactionInventory (applyTransactionInventory wState wSale2Txn).1
        (applyTransactionInventory wState wSale2Txn).2.1).1.logs.take 2).map
      (fun e => e.qtyChange)).sum = 0 :=
  apply_revert_inverse wState wSale2Txn 3 wItem 2
    (by decide) (by decide) (by decide) (fun _ => by decide)

theorem revert_apply_cancel (s s1 s2 : AppState) (txn t2 : Transaction)
    (hrev : revertTransactionInventory s txn = (s1, none))
    (happ : applyTransactionInventory s1 txn = (s2, t2, none)) :
    s2.inventory = s.inventory ∧ s2.transactions = s.transactions ∧
    s2.purchasesJournal = s.purchasesJournal ∧ s2.salesJournal = s.salesJournal ∧
    s2.cashReceipts = s.cashReceipts ∧ s2.cashDisbursements = s.cashDisbursements := by
  cases hinv : txn.invId with
  | none =>
    simp only [revertTransactionInventory, hinv] at hrev
    injection hrev with h1 h2
    subst h1
    simp only [applyTransactionInventory, hinv] at happ
    injection happ with h1 h2
    subst h1
    exact ⟨rfl, rfl, rfl, rfl, rfl, rfl⟩
  | some iid =>
    cases hfind : s.inventory.find? (fun i => i.id = iid) with
    | none =>
      simp only [revertTransactionInventory, hinv, hfind] at hrev
      exact absurd (congrArg Prod.snd hrev) (by simp)
    | some item =>
      cases htype : txn.type with
      | revenue =>
        simp only [revertTransactionInventory, hinv, hfind, htype] at hrev
        injection hrev with h1 h2
        subst h1
        have hfind2 := find?_updateFirst_qty iid
          (fun i => i.quantity + txn.invQty.getD 0) hfind
        simp only [applyTransactionInventory, hinv, addLog_inventory, hfind2, htype] at happ
        split at happ
        · exact absurd happ (by simp)
        · injection happ with h1 h2
          subst h1
          refine ⟨?_, rfl, rfl, rfl, rfl, rfl⟩
          exact updateFirst_qty_add_sub iid (txn.invQty.getD 0) s.inventory
      | expense =>
        simp only [revertTransactionInventory, hinv, hfind, htype] at hrev
        injection hrev with h1 h2
        subst h1
        have hfind2 := find?_updateFirst_qty iid
          (fun i => i.quantity - txn.invQty.getD 0) hfind
        simp only [applyTransactionInventory, hinv, addLog_inventory, hfind2, htype] at happ
        injection happ with h1 h2
        subst h1
        refine ⟨?_, rfl, rfl, rfl, rfl, rfl⟩
        exact updateFirst_qty_sub_add iid (txn.invQty.getD 0) s.inventory

/-- C1 counterexample: the item's stock was driven negative (−1) after
the sale of 5 was recorded.  Editing the sale to quantity 6 reverts the
original (stock −1 → 4), the candidate apply fails (4 < 6), and the
rollback re-apply of the original also fails its own stock guard
(4 < 5), so the edit leaves stock at 4 instead of the pre-edit −1: the
claimed unconditional restoration is false. -/
theorem commitTransactionForm_edit_rollback_cex :
    (revertTransactionInventory exC1state exC1txn).2 = none ∧
    (applyTransactionInventory (revertTransactionInventory exC1state exC1txn).1
        (buildTxn (revertTransactionInventory exC1state exC1txn).1 1 exC1form)).2.2
      = some InvError.insufficientStock ∧
    exC1state.inventory.map (fun i => i.quantity) = [-1] ∧
    (commitTransactionForm exC1state (some 1) exC1form).inventory.map
      (fun i => i.quantity) = [4] ∧
    (commitTransactionForm exC1state (some 1) exC1form).inventory
      ≠ exC1state.inventory := by
  decide

/-- C1 (amended): for an edit in which the revert of the original
succeeds, the apply of the candidate fails, and the rollback re-apply
of the original succeeds (it can fail only when the original is a sale
and the pre-edit stock was negative — the RollbackFailure critical
path), the operation rolls back and afterwards the transactions, the
inventory, and all four journal ledgers are identical to their pre-edit
state. -/
theorem commitTransactionForm_edit_rollback (s : AppState) (eid : Nat) (form : TxnForm)
    (txn t2 t3 : Transaction) (s1 s2 s3 : AppState) (aerr : InvError)
    (hv1 : ¬ (form.description = "" ∨ form.amount ≤ 0))
    (hv2 : ¬ (form.invId.isSome ∧ form.invQty ≤ 0))
    (hfind : s.transactions.find? (fun t => t.id = eid) = some txn)
    (hrev : (if txn.invId.isSome then revertTransactionInventory s txn
              else (s, none)) = (s1, none))
    (happ : applyTransactionInventory s1 (buildTxn s1 txn.id form) = (s2, t2, some aerr))
    (hroll : applyTransactionInventory s2 txn = (s3, t3, none)) :
    commitTransactionForm s (some eid) form = s3 ∧
    s3.transactions = s.transactions ∧
    s3.inventory = s.inventory ∧
    s3.purchasesJournal = s.purchasesJournal ∧
    s3.salesJournal = s.salesJournal ∧
    s3.cashReceipts = s.cashReceipts ∧
    s3.cashDisbursements = s.cashDisbursements := by
  have hs2 : s2 = s1 := by
    have h := (apply_error_frame s1 (buildTxn s1 txn.id form) aerr (by rw [happ])).1
    rw [happ] at h
    exact h
  subst hs2
  constructor
  · simp only [commitTransactionForm, if_neg hv1, if_neg hv2, hfind, hrev, happ, hroll]
  · cases hinv : txn.invId with
    | none =>
      have hrev2 : ((s, (none : Option InvError)) : AppState × Option InvError)
          = (s2, none) := by
        rw [← hrev]
        simp [hinv]
      injection hrev2 with h1 h2
      subst h1
      simp only [applyTransactionInventory, hinv] at hroll
      injection hroll with h1 h2
      subst h1
      exact ⟨rfl, rfl, rfl, rfl, rfl, rfl⟩
    | some iid =>
      have hrev2 : revertTransactionInventory s txn = (s2, none) := by
        rw [← hrev]
        simp [hinv]
      have h := revert_apply_cancel s s2 s3 txn t3 hrev2 hroll
      exact ⟨h.2.1, h.1, h.2.2.1, h.2.2.2.1, h.2.2.2.2.1, h.2.2.2.2.2⟩

theorem commitTransactionForm_edit_rollback_witness :
    commitTransactionForm wC1state (some 1) wC1form = wC1s3 ∧
    wC1s3.inventory = wC1state.inventory ∧
    wC1s3.transactions = wC1state.transactions :=
  ⟨(commitTransactionForm_edit_rollback wC1state 1 wC1form exC1txn wC1t2 wC1t3
      wC1s1 wC1s2 wC1s3 InvError.insufficientStock (by decide) (by decide) (by decide)
      (by decide) (by decide) (by decide)).1,
   (commitTransactionForm_edit_rollback wC1state 1 wC1form exC1txn wC1t2 wC1t3
      wC1s1 wC1s2 wC1s3 InvError.insufficientStock (by decide) (by decide) (by decide)
      (by decide) (by decide) (by decide)).2.2.1,
   (commitTransactionForm_edit_rollback wC1state 1 wC1form exC1txn wC1t2 wC1t3
      wC1s1 wC1s2 wC1s3 InvError.insufficientStock (by decide) (by decide) (by decide)
      (by decide) (by decide) (by decide)).2.1⟩

/-- C10: a stock-adjust 'add' of q units does not record a bare manual
adjustment: it stores a new expense transaction linked to the item with
invQty = q and amount = unitPrice × q, applies it through the normal
inventory path (audit action 'purchase'), and projects a Purchases
journal row (plus, for Cash, a disbursement) from it; only the remove
action writes a 'manual' audit entry and stores no transaction. -/
theorem handleStockAdjust_add_creates_purchase (s : AppState) (iid : Nat) (qty : Int)
    (pm : PaymentMethod) (c : Bool) (it : InventoryItem)
    (hq : 0 < qty) (hfind : s.inventory.find? (fun i => i.id = iid) = some it) :
    (handleStockAdjust s iid qty StockAction.add pm c).transactions
      = s.transactions ++
        [{ id := s.nextId
           description := "Purchase - " ++ it.name
           amount := it.unitPrice * qty
           type := TxnType.expense
           invId := some it.id
           invQty := some qty
           invName := some it.name
           invCost := 0
           paymentMethod := pm
           customer := ""
           supplier := ""
           date := s.now }] ∧
    (∃ e rest, (handleStockAdjust s iid qty StockAction.add pm c).logs = e :: rest ∧
      rest = s.logs ∧ e.action = LogAction.purchase ∧ e.qtyChange = qty) ∧
    (∃ pe prest, (handleStockAdjust s iid qty StockAction.add pm c).purchasesJournal
        = pe :: prest ∧ pe.txnId = s.nextId ∧ pe.amount = it.unitPrice * qty ∧
        pe.invId = some it.id ∧ pe.invQty = some qty) ∧
    (pm = PaymentMethod.cash →
      ∃ de drest, (handleStockAdjust s iid qty StockAction.add pm c).cashDisbursements
        = de :: drest ∧ de.txnId = s.nextId ∧ de.amount = it.unitPrice * qty) ∧
    ((handleStockAdjust s iid qty StockAction.removeStock pm true).transactions
      = s.transactions) ∧
    ((handleStockAdjust s iid qty StockAction.removeStock pm true).purchasesJournal
      = s.purchasesJournal) ∧
    (∃ e2 rest2,
      (handleStockAdjust s iid qty StockAction.removeStock pm true).logs
        = e2 :: rest2 ∧ rest2 = s.logs ∧ e2.action = LogAction.manual ∧
      e2.qtyChange = -qty) := by
  have hq' : ¬ (qty ≤ 0) := not_le.mpr hq
  have hid : it.id = iid := by
    have h := List.find?_some hfind
    simpa using h
  have hfind' : s.inventory.find? (fun i => i.id = it.id) = some it := by
    rw [hid]; exact hfind
  have hcf : ¬ (it.quantity < qty ∧ true = false) := by simp
  cases hpm : pm with
  | cash =>
    simp only [handleStockAdjust, if_neg hq', hfind, applyTransactionInventory,
      hfind', addTransaction, createJournalFromTransaction, removeJournalEntriesForTxn,
      addLog, uid, if_neg hcf]
    refine ⟨?_, ?_, ?_, ?_, ?_, ?_, ?_⟩
    · simp
    · exact ⟨_, _, rfl, rfl, rfl, rfl⟩
    · exact ⟨_, _, rfl, rfl, rfl, rfl, rfl⟩
    · intro _
      exact ⟨_, _, rfl, rfl, rfl⟩
    · simp
    · simp
    · exact ⟨_, _, rfl, rfl, rfl, rfl⟩
  | credit =>
    simp only [handleStockAdjust, if_neg hq', hfind, applyTransactionInventory,
      hfind', addTransaction, createJournalFromTransaction, removeJournalEntriesForTxn,
      addLog, uid, if_neg hcf]
    refine ⟨?_, ?_, ?_, ?_, ?_, ?_, ?_⟩
    · simp
    · exact ⟨_, _, rfl, rfl, rfl, rfl⟩
    · exact ⟨_, _, rfl, rfl, rfl, rfl, rfl⟩
    · intro h
      exact absurd h (by simp)
    · simp
    · simp
    · exact ⟨_, _, rfl, rfl, rfl, rfl⟩

theorem find?_updateFirst_const {p : α → Bool} {l : List α} {x : α} (v : α)
    (h : l.find? p = some x) (hv : p v = true) :
    (updateFirst p (fun _ => v) l).find? p = some v := by
  induction l with
  | nil => simp at h
  | cons a as ih =>
    by_cases ha : p a
    · simp [updateFirst, ha, List.find?_cons_of_pos _ hv]
    · rw [List.find?_cons_of_neg _ ha] at h
      have step : updateFirst p (fun _ => v) (a :: as) = a :: updateFirst p (fun _ => v) as := by
        simp [updateFirst, ha]
      rw [step, List.find?_cons_of_neg _ ha]
      exact ih h

theorem markSalePaid_step (s : AppState) (sid : Nat) (e : JournalEntry) (amt : Option Int)
    (hfind : s.salesJournal.find? (fun x => x.id = sid) = some e)
    (hpa : e.paidAmount ≤ e.amount) :
    ∃ e1, (markSalePaid s sid amt).salesJournal.find? (fun x => x.id = sid) = some e1 ∧
      e1.amount = e.amount ∧ e.paidAmount ≤ e1.paidAmount ∧ e1.paidAmount ≤ e1.amount := by
  by_cases hp : qmin (amt.getD (qmax 0 (e.amount - e.paidAmount)))
      (qmax 0 (e.amount - e.paidAmount)) ≤ 0
  · have hres : markSalePaid s sid amt = s := by
      simp only [markSalePaid, hfind, if_pos hp]
    rw [hres]
    exact ⟨e, hfind, rfl, le_refl _, hpa⟩
  · have hid : (fun x : JournalEntry => decide (x.id = sid))
        { e with
          paidAmount := e.paidAmount + qmin (amt.getD (qmax 0 (e.amount - e.paidAmount)))
            (qmax 0 (e.amount - e.paidAmount))
          paid := decide (e.paidAmount + qmin (amt.getD (qmax 0 (e.amount - e.paidAmount)))
            (qmax 0 (e.amount - e.paidAmount)) ≥ e.amount) } = true := by
      simpa using List.find?_some hfind
    have hfind2 := find?_updateFirst_const _ hfind hid
    have hb1 : 0 < qmin (amt.getD (qmax 0 (e.amount - e.paidAmount)))
        (qmax 0 (e.amount - e.paidAmount)) := lt_of_not_le hp
    have hb2 : qmin (amt.getD (qmax 0 (e.amount - e.paidAmount)))
        (qmax 0 (e.amount - e.paidAmount)) ≤ e.amount - e.paidAmount := by
      simp only [qmin, qmax]
      split_ifs <;> linarith
    refine ⟨{ e with
        paidAmount := e.paidAmount + qmin (amt.getD (qmax 0 (e.amount - e.paidAmount)))
          (qmax 0 (e.amount - e.paidAmount))
        paid := decide (e.paidAmount + qmin (amt.getD (qmax 0 (e.amount - e.paidAmount)))
          (qmax 0 (e.amount - e.paidAmount)) ≥ e.amount) }, ?_, rfl, ?_, ?_⟩
    · simp only [markSalePaid, hfind, if_neg hp, uid]
      exact hfind2
    · show e.paidAmount ≤ e.paidAmount + qmin (amt.getD (qmax 0 (e.amount - e.paidAmount)))
        (qmax 0 (e.amount - e.paidAmount))
      linarith
    · show e.paidAmount + qmin (amt.getD (qmax 0 (e.amount - e.paidAmount)))
        (qmax 0 (e.amount - e.paidAmount)) ≤ e.amount
      linarith

theorem paySupplier_step (s : AppState) (pid : Nat) (e : JournalEntry) (amt : Option Int)
    (hfind : s.purchasesJournal.find? (fun x => x.id = pid) = some e)
    (hpa : e.paidAmount ≤ e.amount) :
    ∃ e1, (paySupplier s pid amt).purchasesJournal.find? (fun x => x.id = pid) = some e1 ∧
      e1.amount = e.amount ∧ e.paidAmount ≤ e1.paidAmount ∧ e1.paidAmount ≤ e1.amount := by
  by_cases hp : qmin (amt.getD (qmax 0 (e.amount - e.paidAmount)))
      (qmax 0 (e.amount - e.paidAmount)) ≤ 0
  · have hres : paySupplier s pid amt = s := by
      simp only [paySupplier, hfind, if_pos hp]
    rw [hres]
    exact ⟨e, hfind, rfl, le_refl _, hpa⟩
  · have hid : (fun x : JournalEntry => decide (x.id = pid))
        { e with
          paidAmount := e.paidAmount + qmin (amt.getD (qmax 0 (e.amount - e.paidAmount)))
            (qmax 0 (e.amount - e.paidAmount))
          paid := decide (e.paidAmount + qmin (amt.getD (qmax 0 (e.amount - e.paidAmount)))
            (qmax 0 (e.amount - e.paidAmount)) ≥ e.amount) } = true := by
      simpa using List.find?_some hfind
    have hfind2 := find?_updateFirst_const _ hfind hid
    have hb1 : 0 < qmin (amt.getD (qmax 0 (e.amount - e.paidAmount)))
        (qmax 0 (e.amount - e.paidAmount)) := lt_of_not_le hp
    have hb2 : qmin (amt.getD (qmax 0 (e.amount - e.paidAmount)))
        (qmax 0 (e.amount - e.paidAmount)) ≤ e.amount - e.paidAmount := by
      simp only [qmin, qmax]
      split_ifs <;> linarith
    refine ⟨{ e with
        paidAmount := e.paidAmount + qmin (amt.getD (qmax 0 (e.amount - e.paidAmount)))
          (qmax 0 (e.amount - e.paidAmount))
        paid := decide (e.paidAmount + qmin (amt.getD (qmax 0 (e.amount - e.paidAmount)))
          (qmax 0 (e.amount - e.paidAmount)) ≥ e.amount) }, ?_, rfl, ?_, ?_⟩
    · simp only [paySupplier, hfind, if_neg hp, uid]
      exact hfind2
    · show e.paidAmount ≤ e.paidAmount + qmin (amt.getD (qmax 0 (e.amount - e.paidAmount)))
        (qmax 0 (e.amount - e.paidAmount))
      linarith
    · show e.paidAmount + qmin (amt.getD (qmax 0 (e.amount - e.paidAmount)))
        (qmax 0 (e.amount - e.paidAmount)) ≤ e.amount
      linarith

/-- C4: over any sequence of settle calls on a Purchases or Sales
journal entry (full when the amount is omitted, otherwise clamped to
the remaining balance), paidAmount is monotonically non-decreasing and
never exceeds amount; and a settlement whose computed payable is ≤ 0 is
rejected with no state change at all. -/
theorem settle_paidAmount_bound_monotone :
    (∀ (s : AppState) (sid : Nat) (e : JournalEntry) (calls : List (Option Int)),
      s.salesJournal.find? (fun x => x.id = sid) = some e →
      e.paidAmount ≤ e.amount →
      ∃ e1, (settleSaleCalls s sid calls).salesJournal.find? (fun x => x.id = sid)
          = some e1 ∧
        e1.amount = e.amount ∧ e.paidAmount ≤ e1.paidAmount ∧
        e1.paidAmount ≤ e1.amount) ∧
    (∀ (s : AppState) (pid : Nat) (e : JournalEntry) (calls : List (Option Int)),
      s.purchasesJournal.find? (fun x => x.id = pid) = some e →
      e.paidAmount ≤ e.amount →
      ∃ e1, (settlePurchaseCalls s pid calls).purchasesJournal.find? (fun x => x.id = pid)
          = some e1 ∧
        e1.amount = e.amount ∧ e.paidAmount ≤ e1.paidAmount ∧
        e1.paidAmount ≤ e1.amount) ∧
    (∀ (s : AppState) (sid : Nat) (e : JournalEntry) (amt : Option Int),
      s.salesJournal.find? (fun x => x.id = sid) = some e →
      qmin (amt.getD (qmax 0 (e.amount - e.paidAmount)))
        (qmax 0 (e.amount - e.paidAmount)) ≤ 0 →
      markSalePaid s sid amt = s) ∧
    (∀ (s : AppState) (pid : Nat) (e : JournalEntry) (amt : Option Int),
      s.purchasesJournal.find? (fun x => x.id = pid) = some e →
      qmin (amt.getD (qmax 0 (e.amount - e.paidAmount)))
        (qmax 0 (e.amount - e.paidAmount)) ≤ 0 →
      paySupplier s pid amt = s) := by
  refine ⟨?_, ?_, ?_, ?_⟩
  · intro s sid e calls
    induction calls generalizing s e with
    | nil =>
      intro hfind hpa
      exact ⟨e, hfind, rfl, le_refl _, hpa⟩
    | cons a rest ih =>
      intro hfind hpa
      obtain ⟨e1, h1, ham, hmono, hb⟩ := markSalePaid_step s sid e a hfind hpa
      obtain ⟨e2, h2, ham2, hmono2, hb2⟩ := ih (markSalePaid s sid a) e1 h1 hb
      refine ⟨e2, ?_, ?_, le_trans hmono hmono2, hb2⟩
      · simpa only [settleSaleCalls, List.foldl_cons] using h2
      · rw [ham2, ham]
  · intro s pid e calls
    induction calls generalizing s e with
    | nil =>
      intro hfind hpa
      exact ⟨e, hfind, rfl, le_refl _, hpa⟩
    | cons a rest ih =>
      intro hfind hpa
      obtain ⟨e1, h1, ham, hmono, hb⟩ := paySupplier_step s pid e a hfind hpa
      obtain ⟨e2, h2, ham2, hmono2, hb2⟩ := ih (paySupplier s pid a) e1 h1 hb
      refine ⟨e2, ?_, ?_, le_trans hmono hmono2, hb2⟩
      · simpa only [settlePurchaseCalls, List.foldl_cons] using h2
      · rw [ham2, ham]
  · intro s sid e amt hfind hp
    simp only [markSalePaid, hfind, if_pos hp]
  · intro s pid e amt hfind hp
    simp only [paySupplier, hfind, if_pos hp]

theorem settle_paidAmount_bound_monotone_witness :
    (∃ e1, (settleSaleCalls wC4state 5 [some 30, some 200, none]).salesJournal.find?
        (fun x => x.id = 5) = some e1 ∧
      e1.amount = wC4entry.amount ∧ wC4entry.paidAmount ≤ e1.paidAmount ∧
      e1.paidAmount ≤ e1.amount) ∧
    (∃ e1, (settlePurchaseCalls wC4state 6 [some 40, none]).purchasesJournal.find?
        (fun x => x.id = 6) = some e1 ∧
      e1.amount = wC4entry.amount ∧ wC4entry.paidAmount ≤ e1.paidAmount ∧
      e1.paidAmount ≤ e1.amount) ∧
    markSalePaid wC4state 5 (some 0) = wC4state ∧
    paySupplier wC4state 6 (some (-5)) = wC4state :=
  ⟨settle_paidAmount_bound_monotone.1 wC4state 5 wC4entry [some 30, some 200, none]
      (by decide) (by decide),
   settle_paidAmount_bound_monotone.2.1 wC4state 6 { wC4entry with id := 6 }
      [some 40, none] (by decide) (by decide),
   settle_paidAmount_bound_monotone.2.2.1 wC4state 5 wC4entry (some 0)
      (by decide) (by decide),
   settle_paidAmount_bound_monotone.2.2.2 wC4state 6 { wC4entry with id := 6 }
      (some (-5)) (by decide) (by decide)⟩

theorem handleStockAdjust_add_creates_purchase_witness :
    (handleStockAdjust wState 3 4 StockAction.add PaymentMethod.cash true).transactions
      = wState.transactions ++
        [{ id := wState.nextId
           description := "Purchase - " ++ wItem.name
           amount := wItem.unitPrice * 4
           type := TxnType.expense
           invId := some wItem.id
           invQty := some 4
           invName := some wItem.name
           invCost := 0
           paymentMethod := PaymentMethod.cash
           customer := ""
           supplier := ""
           date := wState.now }] ∧
    (handleStockAdjust wState 3 4 StockAction.removeStock PaymentMethod.cash true).transactions
      = wState.transactions :=
  ⟨(handleStockAdjust_add_creates_purchase wState 3 4 PaymentMethod.cash true wItem
      (by decide) (by decide)).1,
   (handleStockAdjust_add_creates_purchase wState 3 4 PaymentMethod.cash true wItem
      (by decide) (by decide)).2.2.2.2.1⟩

theorem updateFirst_const_map_key {β : Type _} (key : α → β) {p : α → Bool}
    {l : List α} {x : α} (v : α) (h : l.find? p = some x) (hkey : key v = key x) :
    (updateFirst p (fun _ => v) l).map key = l.map key := by
  induction l with
  | nil => rfl
  | cons a as ih =>
    by_cases ha : p a
    · rw [List.find?_cons_of_pos _ ha] at h
      injection h with h
      subst h
      simp [updateFirst, ha, hkey]
    · rw [List.find?_cons_of_neg _ ha] at h
      simp [updateFirst, ha, ih h]

theorem updatePurchList_txnIds (txn : Transaction) (js : List JournalEntry) :
    ∀ (ds : List CashDisbursement) (n : Nat),
    (updatePurchList txn js ds n).1.map (fun j => j.txnId)
      = js.map (fun j => j.txnId) := by
  induction js with
  | nil => intro ds n; rfl
  | cons j rest ih =>
    intro ds n
    simp only [updatePurchList, List.map_cons]
    split_ifs <;> simp [ih]

theorem updateSalesList_txnIds (txn : Transaction) (js : List JournalEntry) :
    ∀ (rs : List CashReceipt) (n : Nat),
    (updateSalesList txn js rs n).1.map (fun j => j.txnId)
      = js.map (fun j => j.txnId) := by
  induction js with
  | nil => intro rs n; rfl
  | cons j rest ih =>
    intro rs n
    simp only [updateSalesList, List.map_cons]
    split_ifs <;> simp [ih]

theorem updateJournalFromTxn_frame (s : AppState) (txn : Transaction) :
    (updateJournalFromTxn s txn).transactions = s.transactions ∧
    (updateJournalFromTxn s txn).inventory = s.inventory ∧
    (updateJournalFromTxn s txn).logs = s.logs ∧
    (updateJournalFromTxn s txn).purchasesJournal.map (fun j => j.txnId)
      = s.purchasesJournal.map (fun j => j.txnId) ∧
    (updateJournalFromTxn s txn).salesJournal.map (fun j => j.txnId)
      = s.salesJournal.map (fun j => j.txnId) :=
  ⟨rfl, rfl, rfl, updatePurchList_txnIds txn s.purchasesJournal s.cashDisbursements s.nextId,
   updateSalesList_txnIds txn s.salesJournal s.cashReceipts
     (updatePurchList txn s.purchasesJournal s.cashDisbursements s.nextId).2.2⟩

theorem filter_txnId_idem (l : List JournalEntry) (tid : Nat) :
    (l.filter (fun j => j.txnId ≠ tid)).filter (fun j => j.txnId ≠ tid)
      = l.filter (fun j => j.txnId ≠ tid) := by
  induction l with
  | nil => rfl
  | cons a as ih =>
    by_cases ha : a.txnId = tid
    · simp [List.filter_cons, ha, ih]
    · simp [List.filter_cons, ha, ih]

theorem filter_txnId_cons_self (l : List JournalEntry) (e : JournalEntry) (tid : Nat)
    (he : e.txnId = tid) :
    (e :: l).filter (fun j => j.txnId ≠ tid) = l.filter (fun j => j.txnId ≠ tid) := by
  simp [List.filter_cons, he]

theorem countP_filter_txnId (l : List JournalEntry) (tid : Nat) :
    (l.filter (fun j => j.txnId ≠ tid)).countP (fun j => j.txnId = tid) = 0 := by
  rw [List.countP_eq_zero]
  intro j hj
  have h := (List.mem_filter.mp hj).2
  simpa using h

theorem txnIdUnique_filter (l : List JournalEntry) (tid : Nat) (h : txnIdUnique l) :
    txnIdUnique (l.filter (fun j => j.txnId ≠ tid)) := by
  unfold txnIdUnique at *
  exact List.Nodup.sublist ((List.filter_sublist l).map (fun j => j.txnId)) h

theorem txnIdUnique_cons_filter (l : List JournalEntry) (e : JournalEntry) (tid : Nat)
    (he : e.txnId = tid) (h : txnIdUnique l) :
    txnIdUnique (e :: l.filter (fun j => j.txnId ≠ tid)) := by
  unfold txnIdUnique at *
  simp only [List.map_cons, List.nodup_cons]
  refine ⟨?_, List.Nodup.sublist ((List.filter_sublist l).map (fun j => j.txnId)) h⟩
  intro hmem
  rcases List.mem_map.mp hmem with ⟨j, hj, hje⟩
  have hf := (List.mem_filter.mp hj).2
  simp only [decide_not, Bool.not_eq_true', decide_eq_false_iff_not] at hf
  exact hf (hje.trans he)

theorem createJournal_frame (s : AppState) (txn : Transaction) :
    (createJournalFromTransaction s txn).transactions = s.transactions ∧
    (createJournalFromTransaction s txn).inventory = s.inventory ∧
    (createJournalFromTransaction s txn).logs = s.logs := by
  cases htype : txn.type with
  | revenue =>
    cases hpm : txn.paymentMethod with
    | cash =>
      simp [createJournalFromTransaction, removeJournalEntriesForTxn, uid, htype, hpm]
    | credit =>
      simp [createJournalFromTransaction, removeJournalEntriesForTxn, uid, htype, hpm]
  | expense =>
    cases hinv : txn.invId with
    | none =>
      simp [createJournalFromTransaction, removeJournalEntriesForTxn, uid, htype, hinv]
    | some iid =>
      cases hpm : txn.paymentMethod with
      | cash =>
        simp [createJournalFromTransaction, removeJournalEntriesForTxn, uid, htype, hinv, hpm]
      | credit =>
        simp [createJournalFromTransaction, removeJournalEntriesForTxn, uid, htype, hinv, hpm]

theorem createJournal_sales_cons (s : AppState) (txn : Transaction)
    (htype : txn.type = TxnType.revenue) :
    ∃ entry : JournalEntry,
      (createJournalFromTransaction s txn).salesJournal
        = entry :: s.salesJournal.filter (fun j => j.txnId ≠ txn.id) ∧
      entry.txnId = txn.id := by
  cases hpm : txn.paymentMethod with
  | cash =>
    simp only [createJournalFromTransaction, removeJournalEntriesForTxn, uid, htype, hpm]
    exact ⟨_, rfl, rfl⟩
  | credit =>
    simp only [createJournalFromTransaction, removeJournalEntriesForTxn, uid, htype, hpm]
    exact ⟨_, rfl, rfl⟩

theorem createJournal_sales_filter (s : AppState) (txn : Transaction)
    (htype : txn.type = TxnType.expense) :
    (createJournalFromTransaction s txn).salesJournal
      = s.salesJournal.filter (fun j => j.txnId ≠ txn.id) := by
  cases hinv : txn.invId with
  | none =>
    simp [createJournalFromTransaction, removeJournalEntriesForTxn, uid, htype, hinv]
  | some iid =>
    cases hpm : txn.paymentMethod with
    | cash =>
      simp [createJournalFromTransaction, removeJournalEntriesForTxn, uid, htype, hinv, hpm]
    | credit =>
      simp [createJournalFromTransaction, removeJournalEntriesForTxn, uid, htype, hinv, hpm]

theorem createJournal_purch_cons (s : AppState) (txn : Transaction)
    (htype : txn.type = TxnType.expense) (iid : Nat) (hinv : txn.invId = some iid) :
    ∃ entry : JournalEntry,
      (createJournalFromTransaction s txn).purchasesJournal
        = entry :: s.purchasesJournal.filter (fun j => j.txnId ≠ txn.id) ∧
      entry.txnId = txn.id := by
  cases hpm : txn.paymentMethod with
  | cash =>
    simp only [createJournalFromTransaction, removeJournalEntriesForTxn, uid, htype, hinv, hpm]
    exact ⟨_, rfl, rfl⟩
  | credit =>
    simp only [createJournalFromTransaction, removeJournalEntriesForTxn, uid, htype, hinv, hpm]
    exact ⟨_, rfl, rfl⟩

theorem createJournal_purch_filter (s : AppState) (txn : Transaction)
    (h : txn.type = TxnType.revenue ∨ txn.invId = none) :
    (createJournalFromTransaction s txn).purchasesJournal
      = s.purchasesJournal.filter (fun j => j.txnId ≠ txn.id) := by
  cases htype : txn.type with
  | revenue =>
    cases hpm : txn.paymentMethod with
    | cash =>
      simp [createJournalFromTransaction, removeJournalEntriesForTxn, uid, htype, hpm]
    | credit =>
      simp [createJournalFromTransaction, removeJournalEntriesForTxn, uid, htype, hpm]
  | expense =>
    have hinv : txn.invId = none := by
      rcases h with h | h
      · rw [htype] at h; cases h
      · exact h
    simp [createJournalFromTransaction, removeJournalEntriesForTxn, uid, htype, hinv]

/-- Bundled statement of invariant I3: `txnId` is unique within the
Purchases journal and within the Sales journal. -/
def JournalsUnique (s : AppState) : Prop :=
  txnIdUnique s.purchasesJournal ∧ txnIdUnique s.salesJournal

theorem journalsUnique_createJournal (s : AppState) (txn : Transaction)
    (hu : JournalsUnique s) : JournalsUnique (createJournalFromTransaction s txn) := by
  cases htype : txn.type with
  | revenue =>
    obtain ⟨e, he, hek⟩ := createJournal_sales_cons s txn htype
    refine ⟨?_, ?_⟩
    · rw [createJournal_purch_filter s txn (Or.inl htype)]
      exact txnIdUnique_filter _ _ hu.1
    · rw [he]
      exact txnIdUnique_cons_filter _ _ _ hek hu.2
  | expense =>
    refine ⟨?_, ?_⟩
    · cases hinv : txn.invId with
      | none =>
        rw [createJournal_purch_filter s txn (Or.inr hinv)]
        exact txnIdUnique_filter _ _ hu.1
      | some iid =>
        obtain ⟨e, he, hek⟩ := createJournal_purch_cons s txn htype iid hinv
        rw [he]
        exact txnIdUnique_cons_filter _ _ _ hek hu.1
    · rw [createJournal_sales_filter s txn htype]
      exact txnIdUnique_filter _ _ hu.2

theorem journalsUnique_addTransaction (s : AppState) (txn : Transaction)
    (hu : JournalsUnique s) : JournalsUnique (addTransaction s txn) :=
  journalsUnique_createJournal _ txn hu

theorem journalsUnique_revertFst (s : AppState) (t : Transaction)
    (hu : JournalsUnique s) : JournalsUnique (revertTransactionInventory s t).1 :=
  ⟨by rw [(revert_frame s t).2.1]; exact hu.1,
   by rw [(revert_frame s t).2.2.1]; exact hu.2⟩

theorem journalsUnique_applyFst (s : AppState) (t : Transaction)
    (hu : JournalsUnique s) : JournalsUnique (applyTransactionInventory s t).1 :=
  ⟨by rw [(apply_frame s t).2.1]; exact hu.1,
   by rw [(apply_frame s t).2.2.1]; exact hu.2⟩

theorem journalsUnique_updateJournal (s : AppState) (t : Transaction)
    (hu : JournalsUnique s) : JournalsUnique (updateJournalFromTxn s t) := by
  refine ⟨?_, ?_⟩
  · unfold txnIdUnique
    rw [(updateJournalFromTxn_frame s t).2.2.2.1]
    exact hu.1
  · unfold txnIdUnique
    rw [(updateJournalFromTxn_frame s t).2.2.2.2]
    exact hu.2

theorem deleteCascade_journals (st : AppState) (id : Nat) :
    (deleteCascade st id).purchasesJournal
      = st.purchasesJournal.filter (fun j => j.txnId ≠ id) ∧
    (deleteCascade st id).salesJournal
      = st.salesJournal.filter (fun j => j.txnId ≠ id) := by
  unfold deleteCascade
  cases h1 : st.salesJournal.find? (fun x => x.txnId = id) <;>
    cases h2 : st.purchasesJournal.find? (fun x => x.txnId = id) <;>
      simp [h1, h2]

theorem journalsUnique_deleteCascade (st : AppState) (id : Nat)
    (hu : JournalsUnique st) : JournalsUnique (deleteCascade st id) := by
  refine ⟨?_, ?_⟩
  · rw [(deleteCascade_journals st id).1]
    exact txnIdUnique_filter _ _ hu.1
  · rw [(deleteCascade_journals st id).2]
    exact txnIdUnique_filter _ _ hu.2

theorem journalsUnique_deleteTransaction (s : AppState) (id : Nat) (c : Bool)
    (hu : JournalsUnique s) : JournalsUnique (deleteTransaction s id c) := by
  unfold deleteTransaction
  split
  · exact hu
  · next txn hfind =>
    split
    · exact journalsUnique_deleteCascade s id hu
    · next iid hinv =>
      split
      · exact journalsUnique_deleteCascade s id hu
      · next inv hfi =>
        dsimp only
        repeat' split
        all_goals first
          | exact hu
          | exact journalsUnique_revertFst s txn hu
          | exact journalsUnique_deleteCascade _ id (journalsUnique_revertFst s txn hu)

theorem markSalePaid_journals (s : AppState) (sid : Nat) (a : Option Int) :
    (markSalePaid s sid a).purchasesJournal = s.purchasesJournal ∧
    (markSalePaid s sid a).salesJournal.map (fun j => j.txnId)
      = s.salesJournal.map (fun j => j.txnId) := by
  unfold markSalePaid
  split
  · exact ⟨rfl, rfl⟩
  · next sale hfind =>
    dsimp only
    split
    · exact ⟨rfl, rfl⟩
    · exact ⟨rfl, updateFirst_const_map_key (fun j => j.txnId) _ hfind (by rfl)⟩

theorem paySupplier_journals (s : AppState) (pid : Nat) (a : Option Int) :
    (paySupplier s pid a).salesJournal = s.salesJournal ∧
    (paySupplier s pid a).purchasesJournal.map (fun j => j.txnId)
      = s.purchasesJournal.map (fun j => j.txnId) := by
  unfold paySupplier
  split
  · exact ⟨rfl, rfl⟩
  · next p hfind =>
    dsimp only
    split
    · exact ⟨rfl, rfl⟩
    · exact ⟨rfl, updateFirst_const_map_key (fun j => j.txnId) _ hfind (by rfl)⟩

theorem journalsUnique_markSalePaid (s : AppState) (sid : Nat) (a : Option Int)
    (hu : JournalsUnique s) : JournalsUnique (markSalePaid s sid a) := by
  refine ⟨?_, ?_⟩
  · rw [(markSalePaid_journals s sid a).1]
    exact hu.1
  · unfold txnIdUnique
    rw [(markSalePaid_journals s sid a).2]
    exact hu.2

theorem journalsUnique_paySupplier (s : AppState) (pid : Nat) (a : Option Int)
    (hu : JournalsUnique s) : JournalsUnique (paySupplier s pid a) := by
  refine ⟨?_, ?_⟩
  · unfold txnIdUnique
    rw [(paySupplier_journals s pid a).2]
    exact hu.1
  · rw [(paySupplier_journals s pid a).1]
    exact hu.2

theorem journalsUnique_handleStockAdjust (s : AppState) (iid : Nat) (q : Int)
    (act : StockAction) (pm : PaymentMethod) (c : Bool)
    (hu : JournalsUnique s) : JournalsUnique (handleStockAdjust s iid q act pm c) := by
  unfold handleStockAdjust
  split
  · exact hu
  · split
    · exact hu
    · next it hfind =>
      cases act with
      | add =>
        dsimp only
        have hu0 : JournalsUnique (uid s).2 := hu
        split
        · exact journalsUnique_applyFst _ _ hu0
        · exact journalsUnique_addTransaction _ _ (journalsUnique_applyFst _ _ hu0)
      | removeStock =>
        dsimp only
        split
        · exact hu
        · refine ⟨?_, ?_⟩
          · rw [(addLog_frame _ _ _ _ _).2.2.1]
            exact hu.1
          · rw [(addLog_frame _ _ _ _ _).2.2.2.1]
            exact hu.2

theorem journalsUnique_commitForm (s : AppState) (editId : Option Nat) (form : TxnForm)
    (hu : JournalsUnique s) : JournalsUnique (commitTransactionForm s editId form) := by
  unfold commitTransactionForm
  split
  · exact hu
  · split
    · exact hu
    · split
      · next eid =>
        split
        · exact hu
        · next txn hfind =>
          dsimp only
          have hu1 : JournalsUnique (if txn.invId.isSome = true
              then revertTransactionInventory s txn else (s, none)).1 := by
            split
            · exact journalsUnique_revertFst s txn hu
            · exact hu
          split
          · exact hu1
          · split
            · exact journalsUnique_applyFst _ _ (journalsUnique_applyFst _ _ hu1)
            · exact journalsUnique_updateJournal _ _ (journalsUnique_applyFst _ _ hu1)
      · dsimp only
        have hu0 : JournalsUnique (uid s).2 := hu
        split
        · split
          · exact journalsUnique_applyFst _ _ hu0
          · exact journalsUnique_addTransaction _ _ (journalsUnique_applyFst _ _ hu0)
        · exact journalsUnique_addTransaction _ _ hu0

theorem inventoryFormSubmit_journals (s : AppState) (e : Option Nat)
    (n d c : String) (p q : Int) :
    (inventoryFormSubmit s e n d c p q).purchasesJournal = s.purchasesJournal ∧
    (inventoryFormSubmit s e n d c p q).salesJournal = s.salesJournal := by
  unfold inventoryFormSubmit
  dsimp only
  repeat' split
  all_goals exact ⟨rfl, rfl⟩

theorem journalsUnique_runOp (s : AppState) (op : CoreOp)
    (hu : JournalsUnique s) : JournalsUnique (runOp s op) := by
  cases op with
  | commitForm e f => exact journalsUnique_commitForm s e f hu
  | delTxn id c => exact journalsUnique_deleteTransaction s id c hu
  | settleSale sid a => exact journalsUnique_markSalePaid s sid a hu
  | settlePurchase pid a => exact journalsUnique_paySupplier s pid a hu
  | stockAdjust iid q act pm c => exact journalsUnique_handleStockAdjust s iid q act pm c hu
  | invForm e n d c p q =>
    refine ⟨?_, ?_⟩
    · rw [show (runOp s (CoreOp.invForm e n d c p q)).purchasesJournal
          = s.purchasesJournal from (inventoryFormSubmit_journals s e n d c p q).1]
      exact hu.1
    · rw [show (runOp s (CoreOp.invForm e n d c p q)).salesJournal
          = s.salesJournal from (inventoryFormSubmit_journals s e n d c p q).2]
      exact hu.2
  | delItem id => exact hu

/-- C3: the create-journal projection never duplicates a txnId: after one
call the Sales and Purchases journals each hold at most one row for the
transaction's id; a second call for the same id replaces rather than adds
(both journal lengths are unchanged); and every core operation preserves
txnId-uniqueness within the Purchases journal and within the Sales
journal. -/
theorem createJournal_idempotent_unique (s : AppState) (txn : Transaction) :
    ((createJournalFromTransaction s txn).salesJournal.countP
        (fun j => j.txnId = txn.id) ≤ 1 ∧
     (createJournalFromTransaction s txn).purchasesJournal.countP
        (fun j => j.txnId = txn.id) ≤ 1) ∧
    ((createJournalFromTransaction (createJournalFromTransaction s txn) txn).salesJournal.length
        = (createJournalFromTransaction s txn).salesJournal.length ∧
     (createJournalFromTransaction (createJournalFromTransaction s txn) txn).purchasesJournal.length
        = (createJournalFromTransaction s txn).purchasesJournal.length) ∧
    (∀ (st : AppState) (op : CoreOp), JournalsUnique st → JournalsUnique (runOp st op)) := by
  refine ⟨⟨?_, ?_⟩, ⟨?_, ?_⟩, fun st op hu => journalsUnique_runOp st op hu⟩
  · cases htype : txn.type with
    | revenue =>
      obtain ⟨e, he, hek⟩ := createJournal_sales_cons s txn htype
      rw [he, List.countP_cons, countP_filter_txnId]
      split_ifs <;> omega
    | expense =>
      rw [createJournal_sales_filter s txn htype, countP_filter_txnId]
      omega
  · cases htype : txn.type with
    | revenue =>
      rw [createJournal_purch_filter s txn (Or.inl htype), countP_filter_txnId]
      omega
    | expense =>
      cases hinv : txn.invId with
      | none =>
        rw [createJournal_purch_filter s txn (Or.inr hinv), countP_filter_txnId]
        omega
      | some iid =>
        obtain ⟨e, he, hek⟩ := createJournal_purch_cons s txn htype iid hinv
        rw [he, List.countP_cons, countP_filter_txnId]
        split_ifs <;> omega
  · cases htype : txn.type with
    | revenue =>
      obtain ⟨e, he, hek⟩ := createJournal_sales_cons s txn htype
      obtain ⟨e2, he2, hek2⟩ :=
        createJournal_sales_cons (createJournalFromTransaction s txn) txn htype
      rw [he2, he, filter_txnId_cons_self _ _ _ hek, filter_txnId_idem]
      simp
    | expense =>
      rw [createJournal_sales_filter (createJournalFromTransaction s txn) txn htype,
          createJournal_sales_filter s txn htype, filter_txnId_idem]
  · cases htype : txn.type with
    | revenue =>
      rw [createJournal_purch_filter (createJournalFromTransaction s txn) txn (Or.inl htype),
          createJournal_purch_filter s txn (Or.inl htype), filter_txnId_idem]
    | expense =>
      cases hinv : txn.invId with
      | none =>
        rw [createJournal_purch_filter (createJournalFromTransaction s txn) txn (Or.inr hinv),
            createJournal_purch_filter s txn (Or.inr hinv), filter_txnId_idem]
      | some iid =>
        obtain ⟨e, he, hek⟩ := createJournal_purch_cons s txn htype iid hinv
        obtain ⟨e2, he2, hek2⟩ :=
          createJournal_purch_cons (createJournalFromTransaction s txn) txn htype iid hinv
        rw [he2, he, filter_txnId_cons_self _ _ _ hek, filter_txnId_idem]
        simp

theorem createJournal_idempotent_unique_witness :
    JournalsUnique wC3state ∧ JournalsUnique (runOp wC3state (CoreOp.settleSale 51 none)) :=
  ⟨by unfold JournalsUnique txnIdUnique wC3state; decide,
   (createJournal_idempotent_unique emptyState wSaleTxn).2.2 wC3state
     (CoreOp.settleSale 51 none)
     (by unfold JournalsUnique txnIdUnique wC3state; decide)⟩

theorem logSum_addLog (s : AppState) (iid : Nat) (a : LogAction) (d : Int)
    (n : String) (k : Nat) :
    logSum (addLog s (some iid) a d n).logs k
      = (if k = iid then d else 0) + logSum s.logs k := by
  obtain ⟨e, he, hei, heq, hea⟩ := addLog_logs s (some iid) a d n
  rw [he, logSum_cons, hei, heq]
  by_cases hk : k = iid
  · subst hk
    simp
  · have hne : ¬ (some iid = some k) := by
      intro hc
      injection hc with hc
      exact hk hc.symm
    rw [if_neg hne, if_neg hk]

theorem invAudit_shift_mem (inv : List InventoryItem) (logs : List AuditLogEntry)
    (iid : Nat) (d : Int) (f : InventoryItem → InventoryItem) (it : InventoryItem)
    (hnd : (inv.map (fun i => i.id)).Nodup)
    (ha : ∀ x ∈ inv, logSum logs x.id = x.quantity)
    (hfid : ∀ y, (f y).id = y.id)
    (hfq : ∀ y ∈ inv, y.id = iid → (f y).quantity = y.quantity + d)
    (hmem : it ∈ updateFirst (fun i => i.id = iid) f inv) :
    (if it.id = iid then d else 0) + logSum logs it.id = it.quantity := by
  rw [updateFirst_eq_map_of_nodup (fun i => i.id) iid f inv hnd] at hmem
  rcases List.mem_map.mp hmem with ⟨y, hy, hyeq⟩
  by_cases hid : y.id = iid
  · rw [if_pos hid] at hyeq
    subst hyeq
    rw [hfid y, hid, hfq y hy hid]
    have h2 := ha y hy
    rw [hid] at h2
    split_ifs with hc
    · omega
    · exact absurd rfl hc
  · rw [if_neg hid] at hyeq
    subst hyeq
    rw [if_neg hid, zero_add]
    exact ha y hy

theorem find?_eq_of_nodup_mem (key : α → Nat) (k : Nat) (l : List α) (x y : α)
    (hnd : (l.map key).Nodup) (hfind : l.find? (fun i => key i = k) = some x)
    (hy : y ∈ l) (hyk : key y = k) : y = x := by
  induction l with
  | nil => cases hy
  | cons a as ih =>
    simp only [List.map_cons, List.nodup_cons] at hnd
    by_cases hak : key a = k
    · rw [List.find?_cons_of_pos _ (by simp [hak])] at hfind
      injection hfind with hfind
      subst hfind
      rcases List.mem_cons.mp hy with hya | hyas
      · exact hya
      · exfalso
        have hm : key y ∈ List.map key as := List.mem_map_of_mem key hyas
        rw [hyk, ← hak] at hm
        exact hnd.1 hm
    · rw [List.find?_cons_of_neg _ (by simp [hak])] at hfind
      rcases List.mem_cons.mp hy with hya | hyas
      · exfalso
        rw [hya] at hyk
        exact hak hyk
      · exact ih hnd.2 hfind hyas

theorem invIdsNodup_of_map_eq {s t : AppState}
    (h : t.inventory.map (fun i => i.id) = s.inventory.map (fun i => i.id))
    (hnd : InvIdsNodup s) : InvIdsNodup t := by
  unfold InvIdsNodup at *
  rw [h]
  exact hnd

theorem invIdsNodup_applyFst (s : AppState) (txn : Transaction)
    (hnd : InvIdsNodup s) : InvIdsNodup (applyTransactionInventory s txn).1 :=
  invIdsNodup_of_map_eq (apply_frame s txn).2.2.2.2.2 hnd

theorem invIdsNodup_revertFst (s : AppState) (txn : Transaction)
    (hnd : InvIdsNodup s) : InvIdsNodup (revertTransactionInventory s txn).1 :=
  invIdsNodup_of_map_eq (revert_frame s txn).2.2.2.2.2 hnd

theorem invAudit_apply (s : AppState) (txn : Transaction)
    (hnd : InvIdsNodup s) (ha : InvAudit s) :
    InvAudit (applyTransactionInventory s txn).1 := by
  cases hinv : txn.invId with
  | none =>
    simp only [applyTransactionInventory, hinv]
    exact ha
  | some iid =>
    cases hfind : s.inventory.find? (fun i => i.id = iid) with
    | none =>
      simp only [applyTransactionInventory, hinv, hfind]
      exact ha
    | some inv =>
      cases htype : txn.type with
      | revenue =>
        by_cases hq : inv.quantity < txn.invQty.getD 0
        · simp only [applyTransactionInventory, hinv, hfind, htype, if_pos hq]
          exact ha
        · simp only [applyTransactionInventory, hinv, hfind, htype, if_neg hq]
          intro x hmem
          rw [addLog_inventory] at hmem
          rw [logSum_addLog]
          exact invAudit_shift_mem s.inventory s.logs iid (-(txn.invQty.getD 0))
            (fun i => { i with quantity := i.quantity - txn.invQty.getD 0 }) x hnd ha
            (fun y => rfl) (fun y _ _ => rfl) hmem
      | expense =>
        simp only [applyTransactionInventory, hinv, hfind, htype]
        intro x hmem
        rw [addLog_inventory] at hmem
        rw [logSum_addLog]
        exact invAudit_shift_mem s.inventory s.logs iid (txn.invQty.getD 0)
          (fun i => { i with quantity := i.quantity + txn.invQty.getD 0 }) x hnd ha
          (fun y => rfl) (fun y _ _ => rfl) hmem

theorem invAudit_revert (s : AppState) (txn : Transaction)
    (hnd : InvIdsNodup s) (ha : InvAudit s) :
    InvAudit (revertTransactionInventory s txn).1 := by
  cases hinv : txn.invId with
  | none =>
    simp only [revertTransactionInventory, hinv]
    exact ha
  | some iid =>
    cases hfind : s.inventory.find? (fun i => i.id = iid) with
    | none =>
      simp only [revertTransactionInventory, hinv, hfind]
      exact ha
    | some inv =>
      cases htype : txn.type with
      | revenue =>
        simp only [revertTransactionInventory, hinv, hfind, htype]
        intro x hmem
        rw [addLog_inventory] at hmem
        rw [logSum_addLog]
        exact invAudit_shift_mem s.inventory s.logs iid (txn.invQty.getD 0)
          (fun i => { i with quantity := i.quantity + txn.invQty.getD 0 }) x hnd ha
          (fun y => rfl) (fun y _ _ => rfl) hmem
      | expense =>
        simp only [revertTransactionInventory, hinv, hfind, htype]
        intro x hmem
        rw [addLog_inventory] at hmem
        rw [logSum_addLog]
        exact invAudit_shift_mem s.inventory s.logs iid (-(txn.invQty.getD 0))
          (fun i => { i with quantity := i.quantity - txn.invQty.getD 0 }) x hnd ha
          (fun y => rfl) (fun y _ _ => rfl) hmem

theorem invAudit_updateJournal (s : AppState) (t : Transaction) (ha : InvAudit s) :
    InvAudit (updateJournalFromTxn s t) := by
  intro x hmem
  rw [(updateJournalFromTxn_frame s t).2.1] at hmem
  rw [(updateJournalFromTxn_frame s t).2.2.1]
  exact ha x hmem

theorem invAudit_createJournal (s : AppState) (t : Transaction) (ha : InvAudit s) :
    InvAudit (createJournalFromTransaction s t) := by
  intro x hmem
  rw [(createJournal_frame s t).2.1] at hmem
  rw [(createJournal_frame s t).2.2]
  exact ha x hmem

theorem invAudit_addTransaction (s : AppState) (t : Transaction) (ha : InvAudit s) :
    InvAudit (addTransaction s t) :=
  invAudit_createJournal { s with transactions := s.transactions ++ [t] } t
    (fun x hmem => ha x hmem)

theorem deleteCascade_invlogs (st : AppState) (id : Nat) :
    (deleteCascade st id).inventory = st.inventory ∧
    (deleteCascade st id).logs = st.logs := by
  unfold deleteCascade
  cases h1 : st.salesJournal.find? (fun x => x.txnId = id) <;>
    cases h2 : st.purchasesJournal.find? (fun x => x.txnId = id) <;>
      simp [h1, h2]

theorem invAudit_deleteCascade (st : AppState) (id : Nat) (ha : InvAudit st) :
    InvAudit (deleteCascade st id) := by
  intro x hmem
  rw [(deleteCascade_invlogs st id).1] at hmem
  rw [(deleteCascade_invlogs st id).2]
  exact ha x hmem

theorem markSalePaid_invlogs (s : AppState) (sid : Nat) (a : Option Int) :
    (markSalePaid s sid a).inventory = s.inventory ∧
    (markSalePaid s sid a).logs = s.logs := by
  unfold markSalePaid
  split
  · exact ⟨rfl, rfl⟩
  · dsimp only
    split
    · exact ⟨rfl, rfl⟩
    · exact ⟨rfl, rfl⟩

theorem paySupplier_invlogs (s : AppState) (pid : Nat) (a : Option Int) :
    (paySupplier s pid a).inventory = s.inventory ∧
    (paySupplier s pid a).logs = s.logs := by
  unfold paySupplier
  split
  · exact ⟨rfl, rfl⟩
  · dsimp only
    split
    · exact ⟨rfl, rfl⟩
    · exact ⟨rfl, rfl⟩

theorem invAudit_commitForm (s : AppState) (editId : Option Nat) (form : TxnForm)
    (hnd : InvIdsNodup s) (ha : InvAudit s) :
    InvAudit (commitTransactionForm s editId form) := by
  unfold commitTransactionForm
  split
  · exact ha
  · split
    · exact ha
    · split
      · next eid =>
        split
        · exact ha
        · next txn hfind =>
          dsimp only
          have hnd1 : InvIdsNodup (if txn.invId.isSome = true
              then revertTransactionInventory s txn else (s, none)).1 := by
            split
            · exact invIdsNodup_revertFst s txn hnd
            · exact hnd
          have ha1 : InvAudit (if txn.invId.isSome = true
              then revertTransactionInventory s txn else (s, none)).1 := by
            split
            · exact invAudit_revert s txn hnd ha
            · exact ha
          split
          · exact ha1
          · split
            · exact invAudit_apply _ txn (invIdsNodup_applyFst _ _ hnd1)
                (invAudit_apply _ _ hnd1 ha1)
            · exact invAudit_updateJournal _ _
                (fun x hmem => invAudit_apply _ _ hnd1 ha1 x hmem)
      · dsimp only
        have ha0 : InvAudit (uid s).2 := ha
        have hnd0 : InvIdsNodup (uid s).2 := hnd
        split
        · split
          · exact invAudit_apply _ _ hnd0 ha0
          · exact invAudit_addTransaction _ _ (invAudit_apply _ _ hnd0 ha0)
        · exact invAudit_addTransaction _ _ ha0

theorem invAudit_deleteTransaction (s : AppState) (id : Nat) (c : Bool)
    (hnd : InvIdsNodup s) (ha : InvAudit s) :
    InvAudit (deleteTransaction s id c) := by
  unfold deleteTransaction
  split
  · exact ha
  · next txn hfind =>
    split
    · exact invAudit_deleteCascade s id ha
    · next iid hinv =>
      split
      · exact invAudit_deleteCascade s id ha
      · next inv hfi =>
        dsimp only
        repeat' split
        all_goals first
          | exact ha
          | exact invAudit_revert s txn hnd ha
          | exact invAudit_deleteCascade _ id (invAudit_revert s txn hnd ha)

theorem invAudit_handleStockAdjust (s : AppState) (itemId : Nat) (q : Int)
    (act : StockAction) (pm : PaymentMethod) (c : Bool)
    (hnd : InvIdsNodup s) (ha : InvAudit s) :
    InvAudit (handleStockAdjust s itemId q act pm c) := by
  unfold handleStockAdjust
  split
  · exact ha
  · split
    · exact ha
    · next it hfind =>
      cases act with
      | add =>
        dsimp only
        have ha0 : InvAudit (uid s).2 := ha
        have hnd0 : InvIdsNodup (uid s).2 := hnd
        split
        · exact invAudit_apply _ _ hnd0 ha0
        · exact invAudit_addTransaction _ _ (invAudit_apply _ _ hnd0 ha0)
      | removeStock =>
        dsimp only
        split
        · exact ha
        · intro x hmem
          rw [addLog_inventory] at hmem
          rw [logSum_addLog]
          exact invAudit_shift_mem s.inventory s.logs itemId (-q)
            (fun i => { i with quantity := i.quantity - q }) x hnd ha
            (fun y => rfl) (fun y _ _ => rfl) hmem

theorem invAudit_delItem (s : AppState) (id : Nat) (ha : InvAudit s) :
    InvAudit (deleteInventoryItem s id) := by
  intro x hmem
  have hx := List.mem_filter.mp hmem
  have hne : x.id ≠ id := by simpa using hx.2
  rw [show (deleteInventoryItem s id).logs
      = s.logs.filter (fun l => l.itemId ≠ some id) from rfl]
  rw [logSum_filter_ne s.logs id x.id (Ne.symm hne)]
  exact ha x hx.1

theorem invAudit_invForm (s : AppState) (e : Option Nat) (n d c : String) (p q : Int)
    (hnd : InvIdsNodup s) (hf : FreshId s) (ha : InvAudit s) :
    InvAudit (inventoryFormSubmit s e n d c p q) := by
  unfold inventoryFormSubmit
  split
  · exact ha
  · split
    · next eid =>
      split
      · exact ha
      · next it hfi =>
        split
        · intro x hmem
          rw [addLog_inventory] at hmem
          rw [logSum_addLog]
          exact invAudit_shift_mem s.inventory s.logs eid (q - it.quantity)
            (fun i => { i with
              name := n
              description := d
              category := c
              unitPrice := p
              quantity := q }) x hnd ha
            (fun y => rfl)
            (fun y hy hyk => by
              have hnd2 : (s.inventory.map (fun i => i.id)).Nodup := hnd
              have hyx := find?_eq_of_nodup_mem (fun i => i.id) eid s.inventory it y
                hnd2 hfi hy hyk
              rw [hyx]
              dsimp only
              omega)
            hmem
        · intro x hmem
          have h := invAudit_shift_mem s.inventory s.logs eid 0
            (fun i => { i with
              name := n
              description := d
              category := c
              unitPrice := p }) x hnd ha
            (fun y => rfl)
            (fun y _ _ => by dsimp only; omega)
            hmem
          simpa using h
    · dsimp only
      split
      · intro x hmem
        rw [addLog_inventory] at hmem
        rw [logSum_addLog]
        show (if x.id = (uid s).1 then q else 0) + logSum s.logs x.id = x.quantity
        rcases List.mem_append.mp hmem with hx | hx
        · have hne : ¬ (x.id = (uid s).1) := hf.2 x hx
          rw [if_neg hne, zero_add]
          exact ha x hx
        · have hx1 := List.mem_singleton.mp hx
          have hid : x.id = (uid s).1 := by rw [hx1]
          have hqt : x.quantity = q := by rw [hx1]
          rw [if_pos hid, hid, hqt]
          have h0 : logSum s.logs (uid s).1 = 0 :=
            logSum_of_forall_ne s.logs _ (fun l hl => hf.1 l hl)
          rw [h0, add_zero]
      · next hq0 =>
        intro x hmem
        show logSum s.logs x.id = x.quantity
        rcases List.mem_append.mp hmem with hx | hx
        · exact ha x hx
        · have hx1 := List.mem_singleton.mp hx
          have hid : x.id = (uid s).1 := by rw [hx1]
          have hqt : x.quantity = q := by rw [hx1]
          have hq : q = 0 := not_not.mp hq0
          rw [hid, hqt, hq]
          exact logSum_of_forall_ne s.logs _ (fun l hl => hf.1 l hl)

/-- C8: the audit-trail balance invariant I2 survives every core
operation: in a store whose item ids are pairwise distinct, whose next
generated id is fresh, and in which every inventory item's surviving
audit entries (counting the creation entry) sum to its current quantity
(equivalently, the entries after creation sum to quantity minus the
initial creation quantity), the same holds again after any core
operation. -/
theorem invAudit_preserved (s : AppState) (op : CoreOp)
    (hnd : InvIdsNodup s) (hf : FreshId s) (ha : InvAudit s) :
    InvAudit (runOp s op) := by
  cases op with
  | commitForm e f => exact invAudit_commitForm s e f hnd ha
  | delTxn id c => exact invAudit_deleteTransaction s id c hnd ha
  | settleSale sid a =>
    intro x hmem
    rw [show (runOp s (CoreOp.settleSale sid a)).inventory = s.inventory from
      (markSalePaid_invlogs s sid a).1] at hmem
    rw [show (runOp s (CoreOp.settleSale sid a)).logs = s.logs from
      (markSalePaid_invlogs s sid a).2]
    exact ha x hmem
  | settlePurchase pid a =>
    intro x hmem
    rw [show (runOp s (CoreOp.settlePurchase pid a)).inventory = s.inventory from
      (paySupplier_invlogs s pid a).1] at hmem
    rw [show (runOp s (CoreOp.settlePurchase pid a)).logs = s.logs from
      (paySupplier_invlogs s pid a).2]
    exact ha x hmem
  | stockAdjust iid q act pm c => exact invAudit_handleStockAdjust s iid q act pm c hnd ha
  | invForm e n d c p q => exact invAudit_invForm s e n d c p q hnd hf ha
  | delItem id => exact invAudit_delItem s id ha

theorem invAudit_preserved_witness :
    (InvIdsNodup wC3state ∧ FreshId wC3state ∧ InvAudit wC3state) ∧
    InvAudit (runOp wC3state
      (CoreOp.stockAdjust 3 5 StockAction.add PaymentMethod.cash true)) :=
  ⟨⟨by unfold InvIdsNodup wC3state; decide,
    by unfold FreshId wC3state; decide,
    by unfold InvAudit logSum wC3state; decide⟩,
   invAudit_preserved wC3state
     (CoreOp.stockAdjust 3 5 StockAction.add PaymentMethod.cash true)
     (by unfold InvIdsNodup wC3state; decide)
     (by unfold FreshId wC3state; decide)
     (by unfold InvAudit logSum wC3state; decide)⟩
